import Mathlib

/-!
Verification of the OMNeT++ simulation-core slice (`src/sim/cnedfunction.cc`,
`src/sim/cvalue.cc`, `src/sim/cmodule.cc`) against its natural-language
specification.  C++ functions are shallowly embedded as executable Lean
definitions; machine strings become `List Char`, nullable C strings become
lists where `[]` plays the role of null/empty, and C++ exceptions become
explicit error values.
-/

set_option maxRecDepth 10000

namespace Omnetpp

/-! ## String utilities (common/stringutil.h, common/stringtokenizer.h)

These helpers are used by `cNedFunction::parseSignature`.  They live in the
repository's `common/` library (outside the provided slice); their semantics
are the standard ones their call sites rely on: `opp_trim` strips leading and
trailing whitespace, `opp_substringbefore`/`opp_substringafter` return the
part of the string before/after the first occurrence of the separator (empty
string when the separator does not occur), and `StringTokenizer` splits into
maximal runs of non-delimiter characters. -/

def isWs (c : Char) : Bool := c = ' ' || c = '\t' || c = '\n' || c = '\r'

def opp_trim (l : List Char) : List Char :=
  ((l.dropWhile isWs).reverse.dropWhile isWs).reverse

def opp_substringbefore (l : List Char) (c : Char) : List Char :=
  if l.contains c then l.takeWhile (· ≠ c) else []

def opp_substringafter (l : List Char) (c : Char) : List Char :=
  (l.dropWhile (· ≠ c)).drop 1

def tokenizeAux (isDelim : Char → Bool) : List Char → List Char → List (List Char)
  | [], cur => if cur = [] then [] else [cur.reverse]
  | c :: rest, cur =>
    if isDelim c then
      if cur = [] then tokenizeAux isDelim rest []
      else cur.reverse :: tokenizeAux isDelim rest []
    else tokenizeAux isDelim rest (c :: cur)

def tokenize (isDelim : Char → Bool) (l : List Char) : List (List Char) :=
  tokenizeAux isDelim l []

/-! ## cValue (src/sim/cvalue.cc)

`cValue::Type` uses character codes (`INT = 'L'`, `DOUBLE = 'D'`, ...), which
is what makes `cNedFunction::checkArgs`'s comparison `argv[i].type != declType`
meaningful.  The unit is a nullable C string; `[]` stands for both null and
the empty string (precisely the values `opp_isempty` accepts). -/

inductive VType where
  | undef | bool | int | double | string | object
  deriving DecidableEq, Repr

def VType.code : VType → Char
  | .undef => Char.ofNat 0
  | .bool => 'B'
  | .int => 'L'
  | .double => 'D'
  | .string => 'S'
  | .object => 'O'

structure CVal where
  type : VType
  unit : List Char := []
  deriving DecidableEq, Repr

/-- `opp_isempty(argv[i].getUnit())`: true for a null or empty unit string. -/
def CVal.unitEmpty (v : CVal) : Bool := v.unit = []

/-! ## cNedFunction signature parsing (cnedfunction.cc lines 60-152) -/

/-- `parseType` from cnedfunction.cc: maps a NED type word to its one-letter
code, `Char.ofNat 0` meaning "not a type". -/
def parseType (s : List Char) : Char :=
  if s = "bool".toList then 'B'
  else if s = "int".toList || s = "long".toList then 'L'
  else if s = "intquantity".toList then 'T'
  else if s = "double".toList then 'D'
  else if s = "quantity".toList then 'Q'
  else if s = "string".toList then 'S'
  else if s = "xml".toList then 'X'
  else if s = "any".toList then '*'
  else Char.ofNat 0

/-- Argument-name characters accepted by `splitTypeAndName`:
`opp_isalnum`, underscore, and `?` (the optional-argument marker). -/
def isArgNameChar (c : Char) : Bool := c.isAlphanum || c = '_' || c = '?'

/-- `splitTypeAndName` from cnedfunction.cc: whitespace-tokenizes a
"type name" pair, validates both halves. -/
def splitTypeAndName (pair : List Char) : Option (Char × List Char) :=
  match tokenize isWs pair with
  | [t, n] =>
    let ty := parseType t
    if ty = Char.ofNat 0 then none
    else if n.all isArgNameChar then some (ty, n) else none
  | _ => none

structure NedSignature where
  returnType : Char
  name : List Char
  argTypes : List Char
  minArgc : Nat
  maxArgc : Nat
  hasVarargs : Bool
  deriving DecidableEq, Repr

/-- The argument-list loop of `parseSignature` (cnedfunction.cc lines 132-148):
accumulates argument type codes, records the index of the first optional
argument, and accepts a trailing `...`.  Returns
`(argTypes, firstOptionalIndex?, hasVarargs)`. -/
def parseArgList : List (List Char) → Nat → Option (List Char × Option Nat × Bool)
  | [], _ => some ([], none, false)
  | a :: rest, i =>
    if opp_trim a = "...".toList then
      if rest = [] then some ([], none, true) else none
    else
      match splitTypeAndName a with
      | none => none
      | some (ty, nm) =>
        match parseArgList rest (i + 1) with
        | none => none
        | some (tys, firstOpt, va) =>
          let firstOpt' := if nm.contains '?' then some (min i (firstOpt.getD i)) else firstOpt
          some (ty :: tys, firstOpt', va)

/-- `cNedFunction::parseSignature` (cnedfunction.cc lines 112-152), with the
thrown `cRuntimeError` rendered as `none`. -/
def parseSignature (sig : List Char) : Option NedSignature :=
  let typeAndName := opp_trim (opp_substringbefore sig '(')
  match splitTypeAndName typeAndName with
  | none => none
  | some (rty, name) =>
    let rest := opp_trim (opp_substringafter sig '(')
    let missingRParen := !rest.contains ')'
    let argList := opp_trim (opp_substringbefore rest ')')
    let trailingGarbage := opp_trim (opp_substringafter rest ')')
    if missingRParen || trailingGarbage ≠ [] then none
    else
      match parseArgList (tokenize (· = ',') argList) 0 with
      | none => none
      | some (argTypes, firstOpt, hasVarargs) =>
        let maxArgc := argTypes.length
        let minArgc := firstOpt.getD maxArgc
        some ⟨rty, name, argTypes, minArgc, maxArgc, hasVarargs⟩

/-! ## cNedFunction::checkArgs (cnedfunction.cc lines 181-213) -/

inductive ArgErr where
  | wrongNumberOfArguments
  | badArgType (index : Nat) (expected : Char) (actual : VType)
  | dimlessExpected (index : Nat) (actual : VType)
  deriving DecidableEq, Repr

/-- The per-argument body of the `checkArgs` loop.  Note the source's control
flow: the `declType == 'L'` test is a standalone `if`, after which the
`'T'`/`'D'`/`'Q'`/default chain is evaluated as well. -/
def checkOneArg (declType : Char) (i : Nat) (v : CVal) : Option ArgErr :=
  let first : Option ArgErr :=
    if declType = 'L' then
      if v.type ≠ VType.int then some (.badArgType i 'L' v.type)
      else if !v.unitEmpty then some (.dimlessExpected i v.type)
      else none
    else none
  match first with
  | some e => some e
  | none =>
    if declType = 'T' then
      if v.type ≠ VType.int then some (.badArgType i 'L' v.type) else none
    else if declType = 'D' then
      if v.type ≠ VType.double ∧ v.type ≠ VType.int then some (.badArgType i 'D' v.type)
      else if !v.unitEmpty then some (.dimlessExpected i v.type)
      else none
    else if declType = 'Q' then
      if v.type ≠ VType.double ∧ v.type ≠ VType.int then some (.badArgType i 'D' v.type)
      else none
    else if declType ≠ '*' ∧ v.type.code ≠ declType then
      some (.badArgType i declType v.type)
    else none

/-- The `for (i = 0; i < n; i++)` loop of `checkArgs`: arguments beyond the
shorter of the two lists (i.e. beyond `min(argc, maxArgc)`) are not checked. -/
def checkArgsLoop : List Char → List CVal → Nat → Option ArgErr
  | t :: ts, v :: vs, i =>
    match checkOneArg t i v with
    | some e => some e
    | none => checkArgsLoop ts vs (i + 1)
  | _, _, _ => none

/-- `cNedFunction::checkArgs`: argument-count check, then per-argument type
checks over the first `min(argc, maxArgc)` arguments. -/
def checkArgs (sig : NedSignature) (argv : List CVal) : Option ArgErr :=
  let argc := argv.length
  if argc < sig.minArgc ∨ (argc > sig.maxArgc ∧ ¬ sig.hasVarargs) then
    some .wrongNumberOfArguments
  else
    checkArgsLoop sig.argTypes argv 0

/-! ## cValue::str for doubles with a unit (cvalue.cc lines 207-236)

Doubles are modelled as exact rationals; the comparisons against `0.1` and
`10000` in the source are exact at the inputs of interest.  The unit engine
(`UnitConversion`, in `common/`, outside the slice) is passed in as the pair
`getBestUnit`/`convertUnit`. -/

/-- The DOUBLE branch of `cValue::str` with a nonempty unit: returns the
number actually formatted and the unit string appended to it.  Faithful to
cvalue.cc lines 218-228: the best-unit engine is consulted exactly when
`dbl < 0.1 || dbl >= 10000`. -/
def strDoubleWithUnit (getBestUnit : ℚ → List Char → List Char)
    (convertUnit : ℚ → List Char → List Char → ℚ)
    (dbl : ℚ) (unit : List Char) : ℚ × List Char :=
  if dbl < 1/10 ∨ dbl ≥ 10000 then
    let unit' := getBestUnit dbl unit
    (convertUnit dbl unit unit', unit')
  else
    (dbl, unit)

/-- The branch guard on cvalue.cc line 221: `dbl < 0.1 || dbl >= 10000`,
applied to the signed value. -/
def bestUnitTriggered (dbl : ℚ) : Prop := dbl < 1/10 ∨ 10000 ≤ dbl

instance : DecidablePred bestUnitTriggered := fun d =>
  inferInstanceAs (Decidable (d < 1/10 ∨ 10000 ≤ d))

/-- The claim's trigger condition, written from the spec's words:
best-unit selection when `|value| < 0.1` or `|value| ≥ 10000`. -/
def specBestUnitCondition (dbl : ℚ) : Prop := |dbl| < 1/10 ∨ |dbl| ≥ 10000

instance : DecidablePred specBestUnitCondition := fun d =>
  inferInstanceAs (Decidable (|d| < 1/10 ∨ |d| ≥ 10000))

/-- A sample unit engine used to exhibit observable behaviour of
`strDoubleWithUnit`: it always proposes milliseconds, scaling by 1000. -/
def demoGetBestUnit (_ : ℚ) (_ : List Char) : List Char := "ms".toList

def demoConvertUnit (q : ℚ) (_ _ : List Char) : ℚ := 1000 * q

/-! ## Gate tables (cmodule.cc)

A module's gate state is its descriptor array.  Gate objects carry a `pos`
field whose parity encodes the direction (even = input, odd = output; the
decoder `cModule::gate` checks `(id & 1) == (g->pos & 1)`) and whose upper
bits encode the index inside a vector, plus the two connection handles
`previousGate`/`nextGate` reduced to booleans (only connectedness is ever
inspected by the functions below).  Null array slots are not represented:
under the module invariant every slot below `vectorSize` holds a gate, so
vectors are lists whose prefix of length `vectorSize` is live. -/

inductive GateTy where
  | input | output | inout
  deriving DecidableEq, Repr

structure MGate where
  pos : Nat
  label : Nat
  connectedPrev : Bool := false
  connectedNext : Bool := false
  deriving DecidableEq, Repr

instance : Inhabited MGate := ⟨{ pos := 0, label := 0 }⟩

/-- `gate->getPreviousGate() || gate->getNextGate()` — the connectedness test
used by `setGateSize` when shrinking (cmodule.cc lines 810, 816). -/
def MGate.isConnected (g : MGate) : Bool := g.connectedPrev || g.connectedNext

/-- `cGate::isConnectedOutside` (cgate.h, outside the slice): an input gate is
connected outside through its previous gate, an output gate through its next
gate. -/
def MGate.isConnectedOutside (g : MGate) : Bool :=
  if g.pos % 2 = 0 then g.connectedPrev else g.connectedNext

/-- `cGate::isConnectedInside` (cgate.h, outside the slice): the mirror image
of `isConnectedOutside`. -/
def MGate.isConnectedInside (g : MGate) : Bool :=
  if g.pos % 2 = 0 then g.connectedNext else g.connectedPrev

/-- A gate descriptor (`cGate::Desc`): pooled name (`none` once deleted),
type, vector size (−1 = scalar), and the gate storage — the scalar pair or
the two parallel arrays. -/
structure GateDesc where
  name : Option (List Char)
  typ : GateTy
  vectorSize : Int
  inputGate : Option MGate := none
  outputGate : Option MGate := none
  inputGatev : List MGate := []
  outputGatev : List MGate := []
  deriving DecidableEq, Repr

instance : Inhabited GateDesc :=
  ⟨{ name := none, typ := .input, vectorSize := -1 }⟩

def GateDesc.isVector (d : GateDesc) : Bool := d.vectorSize ≥ 0

structure ModuleGates where
  descs : List GateDesc
  deriving DecidableEq, Repr

/-- The `$i`-suffixed lookup name of a descriptor (`cGate::Name::namei`,
cgate.cc outside the slice; per the spec only inout gates are realized as two
`$i`/`$o`-suffixed halves). -/
def GateDesc.nameI (d : GateDesc) : Option (List Char) :=
  d.name.map (fun n => if d.typ = .inout then n ++ "$i".toList else n)

def GateDesc.nameO (d : GateDesc) : Option (List Char) :=
  d.name.map (fun n => if d.typ = .inout then n ++ "$o".toList else n)

/-- `cModule::findGateDesc` (cmodule.cc lines 608-643): splits off a `$i`/`$o`
suffix and searches the descriptor array; `none` stands for the −1 result.
The returned suffix is `Char.ofNat 0` when there is none, mirroring the
C++ `char suffix` out-parameter. -/
def findGateDesc (descs : List GateDesc) (gatename : List Char) : Option (Nat × Char) :=
  let len := gatename.length
  let suffix : Char :=
    if len > 2 ∧ gatename.getD (len - 2) (Char.ofNat 0) = '$' then
      gatename.getD (len - 1) (Char.ofNat 0)
    else Char.ofNat 0
  if suffix ≠ Char.ofNat 0 ∧ suffix ≠ 'i' ∧ suffix ≠ 'o' then none
  else if suffix = 'i' then
    (descs.findIdx? (fun d => d.nameI = some gatename)).map (·, 'i')
  else if suffix = 'o' then
    (descs.findIdx? (fun d => d.nameO = some gatename)).map (·, 'o')
  else
    (descs.findIdx? (fun d => d.name = some gatename)).map (·, Char.ofNat 0)

inductive GateErr where
  | noSuchGateOrVector
  | suffixNotAccepted
  | notVectorGate
  | negativeSize
  | sizeTooLarge
  | connectedGateDeletion (index : Nat)
  | inoutWithoutSuffix
  | bothGateAndSuffix
  | wrongSuffix
  | gateIdInvalid
  | nullGate
  deriving DecidableEq, Repr

/-- `MAX_VECTORGATESIZE` (cmodule.h, outside the slice): the largest vector
index representable in the low id bits, `2^(L-1) − 1`. -/
def MAX_VECTORGATESIZE : Int := 2 ^ 19 - 1

/-- A gate freshly created during vector expansion:
`cGate::Desc::setInputGate/setOutputGate` (cgate.h, outside the slice) store
the index and the direction bit in `pos`; new gates are unconnected. -/
def freshGate (isOut : Bool) (index : Nat) : MGate :=
  { pos := 4 * index + (if isOut then 1 else 0), label := 0 }

/-- The shrink loop of `cModule::setGateSize` (cmodule.cc lines 804-839).
Indices are processed from `size − 1` downwards; each iteration first checks
both halves for connections (throwing `connectedGateDeletion` if any), then
deletes the gates at that index and lowers `vectorSize`.  Consequently, when
the loop stops on a connected gate, the higher-indexed gates have already
been destroyed: the returned triple is the state the module is left in. -/
def shrinkGateVector (typ : GateTy) (newSize : Nat) :
    Nat → List MGate → List MGate → Nat × List MGate × List MGate × Option GateErr
  | 0, inv, outv => (0, inv, outv, none)
  | size + 1, inv, outv =>
    if newSize < size + 1 then
      if typ ≠ GateTy.output ∧ (inv.getD size default).isConnected then
        (size + 1, inv, outv, some (.connectedGateDeletion size))
      else if typ ≠ GateTy.input ∧ (outv.getD size default).isConnected then
        (size + 1, inv, outv, some (.connectedGateDeletion size))
      else
        shrinkGateVector typ newSize size (inv.take size) (outv.take size)
    else (size + 1, inv, outv, none)

/-- `cModule::setGateSize` (cmodule.cc lines 768-881).  Errors are returned
together with the state the module holds when the C++ code throws; the
shrink path can leave a partially-shrunk vector behind. -/
def setGateSize (m : ModuleGates) (gatename : List Char) (newSize : Int) :
    ModuleGates × Option GateErr :=
  match findGateDesc m.descs gatename with
  | none => (m, some .noSuchGateOrVector)
  | some (descIndex, suffix) =>
    if suffix ≠ Char.ofNat 0 then (m, some .suffixNotAccepted)
    else
      let d := m.descs.getD descIndex default
      if ¬ d.isVector then (m, some .notVectorGate)
      else if newSize < 0 then (m, some .negativeSize)
      else if newSize > MAX_VECTORGATESIZE then (m, some .sizeTooLarge)
      else
        let oldSize := d.vectorSize.toNat
        let ns := newSize.toNat
        if ns < oldSize then
          let (sz, inv, outv, err) := shrinkGateVector d.typ ns oldSize d.inputGatev d.outputGatev
          let d' := { d with vectorSize := (sz : Int), inputGatev := inv, outputGatev := outv }
          (⟨m.descs.set descIndex d'⟩, err)
        else if ns > oldSize then
          let newIns := (List.range (ns - oldSize)).map (fun k => freshGate false (oldSize + k))
          let newOuts := (List.range (ns - oldSize)).map (fun k => freshGate true (oldSize + k))
          let d' := { d with
            vectorSize := (ns : Int),
            inputGatev := if d.typ ≠ GateTy.output then d.inputGatev ++ newIns else d.inputGatev,
            outputGatev := if d.typ ≠ GateTy.input then d.outputGatev ++ newOuts else d.outputGatev }
          (⟨m.descs.set descIndex d'⟩, none)
        else (m, none)

/-! ## Gate ids (cmodule.cc lines 660-697 and 892-911)

`GATEID_LBITS` is the fixed low-bit width `L`; it is defined in cgate.h
(outside the slice) as 20 — the spec only says it is a fixed constant. -/

def GATEID_LBITS : Nat := 20

/-- Modelled from the spec: a scalar gate's id is `(descIndex << 1) | isOutput`
(`cGate::getId` lives in cgate.cc, outside the slice; `cModule::gateBaseId`
in the slice computes the same value). -/
def encodeScalarGateId (descIndex : Nat) (isOutput : Bool) : Nat :=
  2 * descIndex + (if isOutput then 1 else 0)

/-- Modelled from the spec: a vector gate's id is
`((descIndex+1) << L) | (isOutput << (L-1)) | index`. -/
def encodeVectorGateId (descIndex : Nat) (isOutput : Bool) (index : Nat) : Nat :=
  (descIndex + 1) * 2 ^ GATEID_LBITS
    + (if isOutput then 1 else 0) * 2 ^ (GATEID_LBITS - 1) + index

/-- `cModule::gate(int id)` (cmodule.cc lines 660-697): decodes the id and
returns the stored gate, checking every component.  `id & GATEID_HMASK == 0`
becomes `id < 2^L`; the `ENSURE` failures and the out-of-range error become
`gateIdInvalid`.  `nullGate` marks the null-pointer dereference the C++ code
would perform on a broken module invariant; it cannot occur in well-formed
states. -/
def gateById (m : ModuleGates) (id : Nat) : Except GateErr MGate :=
  if id < 2 ^ GATEID_LBITS then
    match m.descs[id / 2]? with
    | none => .error .gateIdInvalid
    | some d =>
      if d.name = none then .error .gateIdInvalid
      else if d.isVector then .error .gateIdInvalid
      else if (if id % 2 = 0 then d.typ = GateTy.output else d.typ = GateTy.input) then
        .error .gateIdInvalid
      else
        match (if id % 2 = 0 then d.inputGate else d.outputGate) with
        | none => .error .nullGate
        | some g => if id % 2 = g.pos % 2 then .ok g else .error .gateIdInvalid
  else
    match m.descs[id / 2 ^ GATEID_LBITS - 1]? with
    | none => .error .gateIdInvalid
    | some d =>
      if d.name = none then .error .gateIdInvalid
      else if ¬ d.isVector then .error .gateIdInvalid
      else if (if id / 2 ^ (GATEID_LBITS - 1) % 2 = 1 then d.typ = GateTy.input
               else d.typ = GateTy.output) then
        .error .gateIdInvalid
      else if id % 2 ^ (GATEID_LBITS - 1) ≥ d.vectorSize.toNat then
        .error .gateIdInvalid
      else
        match (if id / 2 ^ (GATEID_LBITS - 1) % 2 = 1 then d.outputGatev
               else d.inputGatev)[id % 2 ^ (GATEID_LBITS - 1)]? with
        | none => .error .nullGate
        | some g => .ok g

/-! ## getOrCreateFirstUnconnectedGate (cmodule.cc lines 1026-1113) -/

/-- `std::lower_bound` as implemented by the standard binary search
(libstdc++ `__lower_bound`): probe the midpoint, discard half.  `isLess i`
plays the role of `comp(*(first+i), value)`; with the comparators
`less_gateConnectedInside/Outside` of cmodule.cc lines 1026-1034 and a null
search value this is exactly "the gate at `i` is connected". -/
def lowerBoundIdxAux (isLess : Nat → Bool) : Nat → Nat → Nat → Nat
  | 0, first, _ => first
  | fuel + 1, first, len =>
    if len = 0 then first
    else
      let half := len / 2
      if isLess (first + half) then
        lowerBoundIdxAux isLess fuel (first + half + 1) (len - half - 1)
      else lowerBoundIdxAux isLess fuel first half

def lowerBoundIdx (isLess : Nat → Bool) (first len : Nat) : Nat :=
  lowerBoundIdxAux isLess len first len

/-- `cModule::getOrCreateFirstUnconnectedGate` (cmodule.cc lines 1058-1113).
Returns the possibly-modified module, the chosen gate (`none` = null), and an
error.  The binary search runs over the connection flags; when it finds no
unconnected gate the vector is expanded (if allowed) via `setGateSize`, else
a linear scan retries before giving up. -/
def getOrCreateFirstUnconnectedGate (m : ModuleGates) (gatename : List Char)
    (suffix : Char) (inside expand : Bool) :
    ModuleGates × Option MGate × Option GateErr :=
  match findGateDesc m.descs gatename with
  | none => (m, none, some .noSuchGateOrVector)
  | some (descIndex, suffix1) =>
    let d := m.descs.getD descIndex default
    if ¬ d.isVector then (m, none, some .notVectorGate)
    else if suffix1 ≠ Char.ofNat 0 ∧ suffix ≠ Char.ofNat 0 then
      (m, none, some .bothGateAndSuffix)
    else
      let sfx := if suffix1 ≠ Char.ofNat 0 then suffix1 else suffix
      let inputSide? : Option Bool :=
        if sfx = Char.ofNat 0 then
          if d.typ = GateTy.inout then none else some (d.typ = GateTy.input)
        else if sfx ≠ 'i' ∧ sfx ≠ 'o' then none
        else some (sfx = 'i')
      match inputSide? with
      | none => (m, none, some (if sfx = Char.ofNat 0 then .inoutWithoutSuffix else .wrongSuffix))
      | some inputSide =>
        let gatev := if inputSide then d.inputGatev else d.outputGatev
        let oldSize := d.vectorSize.toNat
        let connTest : MGate → Bool := fun g =>
          if inside then g.isConnectedInside else g.isConnectedOutside
        let idx := lowerBoundIdx (fun i => connTest (gatev.getD i default)) 0 oldSize
        if idx < oldSize then (m, some (gatev.getD idx default), none)
        else if expand then
          let (m', err) := setGateSize m (d.name.getD []) ((oldSize : Int) + 1)
          let d' := m'.descs.getD descIndex default
          (m', some ((if inputSide then d'.inputGatev else d'.outputGatev).getD oldSize default), err)
        else
          match (List.range oldSize).find? (fun i => ¬ connTest (gatev.getD i default)) with
          | some i => (m, some (gatev.getD i default), none)
          | none => (m, none, none)

/-! ## deleteModule guards (cmodule.cc lines 114-130, 1406-1414) -/

inductive SimStage where
  | build | initializeStage | event | finishStage | refresh | cleanup
  deriving DecidableEq, Repr

/-- The simulation state that `cModule::deleteModule` consults: the system
module, the parent map of the module tree, the set of live modules, the
simulation stage, and `getActivityModule()` (the module whose coroutine is
currently running, if any). -/
structure SimState where
  systemModule : Nat
  parentOf : Nat → Option Nat
  modules : List Nat
  stage : SimStage
  activityModule : Option Nat

/-- `cModule::containsModule` (cmodule.cc lines 1406-1414): walk up the
parent chain from `m` looking for `this`.  `fuel` bounds the walk; the C++
loop relies on the tree being finite and acyclic. -/
def containsModule (parentOf : Nat → Option Nat) (this m : Nat) : Nat → Bool
  | 0 => false
  | fuel + 1 =>
    if m = this then true
    else
      match parentOf m with
      | some p => containsModule parentOf this p fuel
      | none => false

inductive DeleteOutcome where
  | errorSystemModule
  | deleteSelfRaised (target : Nat)
  | performed
  deriving DecidableEq, Repr

/-- `cModule::deleteModule` (cmodule.cc lines 114-130): the system-module
guard, then the delete-self guard (`cDeleteModuleException(this)` when the
active coroutine's module is inside the subtree being deleted), and only
then `callPreDelete` + `doDeleteModule` (whose module-tree effect is the
removal of the subtree). -/
def deleteModule (st : SimState) (this : Nat) (fuel : Nat) : SimState × DeleteOutcome :=
  if st.systemModule = this ∧ st.stage ≠ SimStage.cleanup then
    (st, .errorSystemModule)
  else
    match st.activityModule with
    | some active =>
      if containsModule st.parentOf this active fuel then (st, .deleteSelfRaised this)
      else
        ({ st with modules := st.modules.filter (fun x => ¬ containsModule st.parentOf this x fuel) },
         .performed)
    | none =>
      ({ st with modules := st.modules.filter (fun x => ¬ containsModule st.parentOf this x fuel) },
       .performed)

/-! ## Module subtrees (cmodule.cc lines 346-364, 132-207)

A module subtree: the id, the attributes saved by the post-delete
notification, and the submodules.  `vectorIndex = −1` marks a scalar
submodule (`cModule::vectorIndex`); vector members carry their index and the
owning array's size. -/

structure ModInfo where
  name : List Char
  typeName : List Char
  vectorIndex : Int
  vectorSize : Int
  deriving DecidableEq, Repr

/-- A module subtree.  Mirroring `cModule::SubcomponentData`, the scalar
submodules and the (flattened, live) submodule-vector slots are kept in two
separate lists; every traversal below visits scalars first, exactly like
`cModule::SubmoduleIterator` (cmodule.cc lines 1857-1900). -/
inductive MTree where
  | node (id : Nat) (info : ModInfo) (scalars : List MTree) (vectors : List MTree)

def MTree.id : MTree → Nat
  | .node i _ _ _ => i

def MTree.info : MTree → ModInfo
  | .node _ inf _ _ => inf

mutual
/-- `cModule::reassignModuleIdRec` (cmodule.cc lines 346-364) together with
the registry (`cSimulation::registerComponent` hands out monotonically
increasing ids, so a re-registered module receives `nextId`).  For each
module, in preorder: deregister, register (obtaining the fresh id), rewrite
every FES message whose arrival-module id equals the old id, then recurse
into the submodules. -/
def reassignModuleIdRec : MTree → Nat → List Nat → MTree × Nat × List Nat
  | .node oldId info scalars vectors, nextId, fes =>
    let newId := nextId
    let fes' := fes.map (fun a => if a = oldId then newId else a)
    let rsc := reassignChildren scalars (newId + 1) fes'
    let rvc := reassignChildren vectors rsc.2.1 rsc.2.2
    (.node newId info rsc.1 rvc.1, rvc.2.1, rvc.2.2)

def reassignChildren : List MTree → Nat → List Nat → List MTree × Nat × List Nat
  | [], nextId, fes => ([], nextId, fes)
  | c :: rest, nextId, fes =>
    let rc := reassignModuleIdRec c nextId fes
    let rr := reassignChildren rest rc.2.1 rc.2.2
    (rc.1 :: rr.1, rr.2.1, rr.2.2)
end

mutual
/-- Preorder list of module ids of a subtree — the order in which
`reassignModuleIdRec` visits them. -/
def idsOf : MTree → List Nat
  | .node i _ sc vc => i :: (idsOfList sc ++ idsOfList vc)

def idsOfList : List MTree → List Nat
  | [] => []
  | c :: rest => idsOf c ++ idsOfList rest
end

mutual
/-- The subtree with all ids erased; used to state that reassignment keeps
the tree structure and module attributes. -/
def eraseIds : MTree → MTree
  | .node _ info sc vc => .node 0 info (eraseIdsList sc) (eraseIdsList vc)

def eraseIdsList : List MTree → List MTree
  | [] => []
  | c :: rest => eraseIds c :: eraseIdsList rest
end

/-- The arrival-module-id rewrite induced by reassigning the subtree with
preorder id list `olds`, the fresh ids starting at `base`: the module at
preorder position `k` goes from `olds[k]` to `base + k`; ids outside the
subtree are untouched. -/
def newIdFor (olds : List Nat) (base : Nat) (a : Nat) : Nat :=
  if a ∈ olds then base + olds.indexOf a else a

/-! ## Deletion trace (cmodule.cc lines 132-207, 1726-1748)

`doDeleteModule` as a trace of its observable actions, in source order:
pre-delete notification (when the module has `PRE_MODEL_CHANGE` listeners),
environment callback, disconnection of outside connections, recursive
deletion of submodules (scalar submodules via `doDeleteModule`, submodule
vector slots via `deleteModule`, which first runs the `preDelete` hooks via
`callPreDelete`), disconnection of remaining connections, gate deletion,
listener release, destruction of the module object itself, and — when the
parent has `POST_MODEL_CHANGE` listeners — the post-delete notification
emitted on the parent and carrying the record saved before `delete this`.
No coroutine is active during these traces (a delete-self would have been
raised before `doDeleteModule` is reached). -/

structure DeletedRecord where
  moduleId : Nat
  moduleName : List Char
  moduleTypeName : List Char
  vectorSize : Int
  index : Int
  parentId : Nat
  deriving DecidableEq, Repr

inductive DelEv where
  | preModuleDelete (moduleId : Nat)
  | envirModuleDeleted (moduleId : Nat)
  | disconnectOutside (moduleId : Nat)
  | userPreDelete (moduleId : Nat)
  | disconnectInside (moduleId : Nat)
  | clearGates (moduleId : Nat)
  | releaseLocalListeners (moduleId : Nat)
  | destroy (moduleId : Nat)
  | postModuleDelete (parentId : Nat) (rec : DeletedRecord)
  deriving DecidableEq, Repr

/-- The record filled in at cmodule.cc lines 188-196, before `delete this`:
`moduleId`, name, type, `vectorSize`/`index` (−1 for scalars), parent. -/
def savedRecord (id : Nat) (info : ModInfo) (parentId : Nat) : DeletedRecord :=
  { moduleId := id
    moduleName := info.name
    moduleTypeName := info.typeName
    vectorSize := if info.vectorIndex ≠ -1 then info.vectorSize else -1
    index := if info.vectorIndex ≠ -1 then info.vectorIndex else -1
    parentId := parentId }

mutual
/-- `cModule::callPreDelete` (cmodule.cc lines 1726-1748): submodules first,
then the module itself. -/
def callPreDeleteTrace : MTree → List DelEv
  | .node id _ sc vc =>
    callPreDeleteListTrace sc ++ callPreDeleteListTrace vc ++ [.userPreDelete id]

def callPreDeleteListTrace : List MTree → List DelEv
  | [] => []
  | c :: rest => callPreDeleteTrace c ++ callPreDeleteListTrace rest
end

mutual
/-- Trace of `cModule::doDeleteModule` (cmodule.cc lines 132-207) for a
module whose parent (if any) is `parent`.  `pre`/`post` tell which modules
have `PRE_MODEL_CHANGE`/`POST_MODEL_CHANGE` listeners. -/
def doDeleteModuleTrace (pre post : Nat → Bool) (parent : Option Nat) : MTree → List DelEv
  | .node id info sc vc =>
    (if pre id then [DelEv.preModuleDelete id] else [])
    ++ [DelEv.envirModuleDeleted id]
    ++ [DelEv.disconnectOutside id]
    ++ deleteScalarsTrace pre post id sc
    ++ deleteVectorSlotsTrace pre post id vc
    ++ [DelEv.disconnectInside id, DelEv.clearGates id, DelEv.releaseLocalListeners id]
    ++ (match parent with
        | none => [DelEv.destroy id]
        | some p =>
          if post p then [DelEv.destroy id, DelEv.postModuleDelete p (savedRecord id info p)]
          else [DelEv.destroy id])

/-- The scalar-submodule loop (cmodule.cc lines 153-155): direct
`doDeleteModule` calls. -/
def deleteScalarsTrace (pre post : Nat → Bool) (parent : Nat) : List MTree → List DelEv
  | [] => []
  | c :: rest =>
    doDeleteModuleTrace pre post (some parent) c
    ++ deleteScalarsTrace pre post parent rest

/-- The submodule-vector loop (cmodule.cc lines 156-159): each live slot is
deleted via `deleteModule()`, i.e. `callPreDelete` runs first. -/
def deleteVectorSlotsTrace (pre post : Nat → Bool) (parent : Nat) : List MTree → List DelEv
  | [] => []
  | c :: rest =>
    callPreDeleteTrace c ++ doDeleteModuleTrace pre post (some parent) c
    ++ deleteVectorSlotsTrace pre post parent rest
end

/-! ## Staged initialization driver (cmodule.cc lines 1603-1697)

One level of `cModule::initializeModules` for a fixed stage: the loop over
the direct submodules with the `FL_CURRENTSTAGEDONE` bookkeeping, driven by
the slot-indexed `SubmoduleIterator` of cmodule.cc lines 1857-1900 (`++it`
advances the numeric slot; it does not track list mutations).  A submodule's
`initialize(stage)` is abstracted into `action`, giving the set of sibling
ids the user code deletes; the recorded `log` lists the modules whose
`initialize(stage)` was invoked, in order. -/

structure InitSub where
  id : Nat
  done : Bool
  deriving DecidableEq, Repr

/-- The effect on the submodule list of user code deleting the given ids. -/
def applyDeletes (subs : List InitSub) (dels : List Nat) : List InitSub :=
  subs.filter (fun s => ¬ dels.contains s.id)

/-- One pass of the `for (SubmoduleIterator it(this); ...)` loop
(cmodule.cc lines 1658-1676), with `fuel` bounding the number of iterations
(the loop runs at most once per slot, so `subs.length` fuel is enough).
Returns the submodule list, the call log, and the `again` flag (set when the
submodule just processed no longer exists). -/
def initPassAux (action : Nat → List Nat) :
    Nat → Nat → List InitSub → List Nat → List InitSub × List Nat × Bool
  | 0, _, subs, log => (subs, log, false)
  | fuel + 1, slot, subs, log =>
    if h : slot < subs.length then
      let s := subs.get ⟨slot, h⟩
      if s.done then initPassAux action fuel (slot + 1) subs log
      else
        let log' := log ++ [s.id]
        let subs' := applyDeletes subs (action s.id)
        if subs'.any (fun x => x.id = s.id) then
          initPassAux action fuel (slot + 1)
            (subs'.map (fun x => if x.id = s.id then { x with done := true } else x)) log'
        else
          (subs', log', true)
    else (subs, log, false)

def initPass (action : Nat → List Nat) (subs : List InitSub) (log : List Nat) :
    List InitSub × List Nat × Bool :=
  initPassAux action subs.length 0 subs log

/-- The `do { ... } while (again)` loop (cmodule.cc lines 1655-1681): rerun
the pass from the first slot until no deletion interrupted it.  `fuel`
bounds the number of restarts. -/
def initStageLoop (action : Nat → List Nat) : Nat → List InitSub → List Nat →
    List InitSub × List Nat
  | 0, subs, log => (subs, log)
  | fuel + 1, subs, log =>
    let (subs', log', again) := initPass action subs log
    if again then initStageLoop action fuel subs' log'
    else (subs', log')

/-- The per-stage driver: clear every `FL_CURRENTSTAGEDONE` flag
(cmodule.cc lines 1653-1654), then run the restart loop. -/
def initializeModulesDriver (action : Nat → List Nat) (subs : List Nat) (fuel : Nat) :
    List InitSub × List Nat :=
  initStageLoop action fuel (subs.map (fun i => { id := i, done := false })) []

/-! ## Characterizations used to state the amended claims -/

/-- Whether the shrink loop's connectivity check fires at index `j` (either
half of the gate pair at `j` is still connected, taking the gate type into
account — cf. cmodule.cc lines 806-819). -/
def connAt (typ : GateTy) (inv outv : List MGate) (j : Nat) : Bool :=
  (decide (typ ≠ GateTy.output) && (inv.getD j default).isConnected)
  || (decide (typ ≠ GateTy.input) && (outv.getD j default).isConnected)

/-- The highest index in `[newSize, size)` whose gate pair is still
connected: the first connected index of the removal range scanned from the
top. -/
def topConnected (typ : GateTy) (inv outv : List MGate) (newSize size : Nat) : Option Nat :=
  ((List.range' newSize (size - newSize)).reverse).find? (connAt typ inv outv)

/-- The descriptor state an interrupted shrink leaves behind when the
highest still-connected removed index is `j`: gates above `j` deleted,
vector size lowered to `j + 1`. -/
def shrunkDesc (d : GateDesc) (j : Nat) : GateDesc :=
  { d with vectorSize := ((j + 1 : Nat) : Int),
           inputGatev := d.inputGatev.take (j + 1),
           outputGatev := d.outputGatev.take (j + 1) }

/-- The descriptor state after a one-gate expansion
`setGateSize(name, size + 1)`: one fresh unconnected gate appended on each
existing side. -/
def grownDesc (d : GateDesc) : GateDesc :=
  { d with
    vectorSize := ((d.vectorSize.toNat + 1 : Nat) : Int),
    inputGatev :=
      if d.typ ≠ GateTy.output then d.inputGatev ++ [freshGate false d.vectorSize.toNat]
      else d.inputGatev,
    outputGatev :=
      if d.typ ≠ GateTy.input then d.outputGatev ++ [freshGate true d.vectorSize.toNat]
      else d.outputGatev }

/-! ## Concrete data used by witnesses and counterexamples -/

def demoInfo : ModInfo := { name := "m".toList, typeName := "T".toList,
                            vectorIndex := -1, vectorSize := -1 }

/-- A five-module subtree (ids 3, 7, 1, 9 scalar; 5 in a vector slot). -/
def demoTree : MTree :=
  .node 3 demoInfo
    [.node 7 demoInfo [] [], .node 1 demoInfo [.node 9 demoInfo [] []] []]
    [.node 5 { demoInfo with vectorIndex := 0, vectorSize := 1 } [] []]

/-- Parent map of a chain 0 ← 1 ← 2 ← 3. -/
def demoParent : Nat → Option Nat := fun n => if n = 0 then none else some (n - 1)

def demoSimState : SimState :=
  { systemModule := 0, parentOf := demoParent, modules := [0, 1, 2, 3],
    stage := SimStage.event, activityModule := some 3 }

def demoSimStateIdle : SimState :=
  { systemModule := 0, parentOf := demoParent, modules := [0, 1, 2, 3],
    stage := SimStage.event, activityModule := none }

/-- Gate vector `out[2]` of input type with `out[0]` still connected —
the C2 scenario. -/
def demoShrinkDesc : GateDesc :=
  { name := some "out".toList, typ := GateTy.input, vectorSize := 2,
    inputGatev := [{ pos := 0, label := 10, connectedNext := true },
                   { pos := 4, label := 11 }] }

/-- Gate vector `g[2]` of input type where `g[0]` is unconnected but `g[1]`
is connected — the out-of-order connection pattern the binary search of
`getOrCreateFirstUnconnectedGate` misses. -/
def demoHoleDesc : GateDesc :=
  { name := some "g".toList, typ := GateTy.input, vectorSize := 2,
    inputGatev := [{ pos := 0, label := 50 },
                   { pos := 4, label := 51, connectedPrev := true }] }

/-- Gate vector `g[3]` of input type with the connected gates forming a
prefix (`g[0]`, `g[1]` connected, `g[2]` not). -/
def demoOrderedDesc : GateDesc :=
  { name := some "g".toList, typ := GateTy.input, vectorSize := 3,
    inputGatev := [{ pos := 0, label := 60, connectedPrev := true },
                   { pos := 4, label := 61, connectedPrev := true },
                   { pos := 8, label := 62 }] }

/-- Fully connected gate vector `g[2]` of input type. -/
def demoFullDesc : GateDesc :=
  { name := some "g".toList, typ := GateTy.input, vectorSize := 2,
    inputGatev := [{ pos := 0, label := 70, connectedPrev := true },
                   { pos := 4, label := 71, connectedPrev := true }] }

/-- A module with a scalar input gate `in` (descriptor 0) and an inout gate
vector `p[3]` (descriptor 1). -/
def demoGateModule : ModuleGates :=
  ⟨[{ name := some "in".toList, typ := GateTy.input, vectorSize := -1,
      inputGate := some { pos := 0, label := 20 } },
    { name := some "p".toList, typ := GateTy.inout, vectorSize := 3,
      inputGatev := [{ pos := 0, label := 30 }, { pos := 4, label := 31 },
                     { pos := 8, label := 32 }],
      outputGatev := [{ pos := 1, label := 40 }, { pos := 5, label := 41 },
                      { pos := 9, label := 42 }] },
    { name := some "q".toList, typ := GateTy.output, vectorSize := 2,
      outputGatev := [{ pos := 1, label := 50 }, { pos := 5, label := 51 }] }]⟩

/-! # Theorems -/

/-! ## Generic helper lemmas -/

theorem checkArgsLoop_append (ts : List Char) (argv extra : List CVal) (i : Nat)
    (h : ts.length ≤ argv.length) :
    checkArgsLoop ts (argv ++ extra) i = checkArgsLoop ts argv i := by
  induction ts generalizing argv i with
  | nil => cases argv <;> rfl
  | cons t ts ih =>
    cases argv with
    | nil => simp at h
    | cons v vs =>
      simp only [List.cons_append, checkArgsLoop]
      cases checkOneArg t i v with
      | some e => rfl
      | none =>
        simp only []
        exact ih vs (i + 1) (by simpa using h)

theorem checkArgsLoop_none_all (ts : List Char) (vs : List CVal) (i : Nat)
    (h : checkArgsLoop ts vs i = none) :
    ∀ j t v, ts[j]? = some t → vs[j]? = some v → checkOneArg t (i + j) v = none := by
  induction ts generalizing vs i with
  | nil => intro j t v ht hv; simp at ht
  | cons t0 ts ih =>
    intro j t v ht hv
    cases vs with
    | nil => simp at hv
    | cons v0 vs =>
      have hsplit : checkOneArg t0 i v0 = none ∧ checkArgsLoop ts vs (i + 1) = none := by
        unfold checkArgsLoop at h
        cases hone : checkOneArg t0 i v0 with
        | some e => rw [hone] at h; exact Option.noConfusion h
        | none => rw [hone] at h; exact ⟨rfl, h⟩
      cases j with
      | zero =>
        simp only [List.getElem?_cons_zero, Option.some_inj] at ht hv
        subst ht hv
        simpa using hsplit.1
      | succ k =>
        simp only [List.getElem?_cons_succ] at ht hv
        have := ih vs (i + 1) hsplit.2 k t v ht hv
        rw [show i + (k + 1) = i + 1 + k by omega]
        exact this

/-! ## C1 — NED function argument checking -/

/-- C1: for a signature position declared `int` (code `L`), `checkArgs`
accepts a dimensionless integer, rejects a double with a type-mismatch
error, and rejects a unit-carrying integer with a dimensionless-required
error; a trailing `,...` admits any number of extra arguments of any type;
and the signature `"int choose(int n, ...)"` parses to one mandatory `L`
argument with varargs and accepts the argument list `(3, "a", "b", "c")`. -/
theorem c1_checkArgs_int_arg_and_varargs :
    (∀ i : Nat, checkOneArg 'L' i { type := VType.int } = none) ∧
    (∀ (i : Nat) (u : List Char), checkOneArg 'L' i { type := VType.double, unit := u } =
        some (.badArgType i 'L' VType.double)) ∧
    (∀ (i : Nat) (u : List Char), u ≠ [] →
        checkOneArg 'L' i { type := VType.int, unit := u } =
          some (.dimlessExpected i VType.int)) ∧
    (∀ (sig : NedSignature) (argv : List CVal) (j : Nat) (v : CVal),
        sig.argTypes[j]? = some 'L' → argv[j]? = some v →
        (v.type = VType.double ∨ (v.type = VType.int ∧ v.unit ≠ [])) →
        checkArgs sig argv ≠ none) ∧
    (∀ (sig : NedSignature) (argv extra : List CVal), sig.hasVarargs = true →
        sig.minArgc ≤ argv.length → sig.argTypes.length ≤ argv.length →
        checkArgs sig (argv ++ extra) = checkArgs sig argv) ∧
    parseSignature "int choose(int n, ...)".toList =
      some ⟨'L', "choose".toList, ['L'], 1, 1, true⟩ ∧
    checkArgs ⟨'L', "choose".toList, ['L'], 1, 1, true⟩
      [{ type := VType.int }, { type := VType.string },
       { type := VType.string }, { type := VType.string }] = none := by
  refine ⟨fun i => rfl, fun i u => rfl, ?_, ?_, ?_, by decide, by decide⟩
  · intro i u hu
    simp [checkOneArg, CVal.unitEmpty, hu]
  · intro sig argv j v ht hv hbad hnone
    unfold checkArgs at hnone
    by_cases hcount : argv.length < sig.minArgc ∨
        (argv.length > sig.maxArgc ∧ ¬ sig.hasVarargs = true)
    · rw [if_pos hcount] at hnone
      exact Option.noConfusion hnone
    · rw [if_neg hcount] at hnone
      have := checkArgsLoop_none_all sig.argTypes argv 0 hnone j 'L' v ht hv
      rw [show 0 + j = j by omega] at this
      rcases hbad with hdbl | ⟨hint, hunit⟩
      · simp [checkOneArg, hdbl] at this
      · simp [checkOneArg, hint, CVal.unitEmpty, hunit] at this
  · intro sig argv extra hva hmin hlen
    have hcount : ¬ (argv.length + extra.length < sig.minArgc ∨
        (argv.length + extra.length > sig.maxArgc ∧ ¬ sig.hasVarargs = true)) := by
      simp [hva]; omega
    have hcount' : ¬ (argv.length < sig.minArgc ∨
        (argv.length > sig.maxArgc ∧ ¬ sig.hasVarargs = true)) := by
      simp [hva]; omega
    simp only [checkArgs, List.length_append]
    rw [if_neg (by simpa using hcount), if_neg (by simpa using hcount')]
    exact checkArgsLoop_append _ _ _ _ hlen

/-- Closed instance of `c1_checkArgs_int_arg_and_varargs`: the unit-carrying
integer rejection at position 0 with unit `s`, and vararg admission of one
extra string argument. -/
theorem c1_checkArgs_int_arg_and_varargs_witness :
    checkOneArg 'L' 0 { type := VType.int, unit := "s".toList } =
      some (.dimlessExpected 0 VType.int) ∧
    checkArgs ⟨'L', "choose".toList, ['L'], 1, 1, true⟩
        ([{ type := VType.int }] ++ [{ type := VType.string }]) =
      checkArgs ⟨'L', "choose".toList, ['L'], 1, 1, true⟩ [{ type := VType.int }] :=
  ⟨c1_checkArgs_int_arg_and_varargs.2.2.1 0 "s".toList (by decide),
   c1_checkArgs_int_arg_and_varargs.2.2.2.2.1 _ _ _ rfl (by decide) (by decide)⟩

/-! ## C3 — initialization driver under sibling deletion -/

/-- C3: evaluation of the initialization driver at the failing input.  With
direct submodules `[0, 1, 2]` where module 1's `initialize(stage)` deletes
its earlier sibling 0, the slot-based iterator skips module 2: the stage
ends with module 2 alive but never initialized (the call log is `[0, 1]`),
contradicting the driver's documented tolerance of arbitrary submodule
deletion. -/
theorem c3_initialize_driver_skips_surviving_sibling :
    initializeModulesDriver (fun i => if i = 1 then [0] else []) [0, 1, 2] 4 =
      ([{ id := 1, done := true }, { id := 2, done := false }], [0, 1]) ∧
    2 ∈ ((initializeModulesDriver (fun i => if i = 1 then [0] else [])
            [0, 1, 2] 4).1.map InitSub.id) ∧
    2 ∉ (initializeModulesDriver (fun i => if i = 1 then [0] else [])
            [0, 1, 2] 4).2 := by
  decide

/-! ## C6 — self-deletion raises the delete-self signal -/

/-- C6 counterexample: deleting the system module (module 0) during the
event stage while module 3's coroutine is active.  Module 3 lies inside the
system module's subtree, so the claim as stated would require the
delete-self signal here, but `deleteModule` throws the system-module error
instead: the guard at cmodule.cc:116-117 runs before the delete-self check
at cmodule.cc:123-125. -/
theorem c6_counterexample_system_module :
    containsModule demoSimState.parentOf 0 3 10 = true ∧
    demoSimState.activityModule = some 3 ∧
    demoSimState.stage ≠ SimStage.cleanup ∧
    deleteModule demoSimState 0 10 = (demoSimState, .errorSystemModule) :=
  ⟨by decide, rfl, by decide, rfl⟩

/-- C6 (amended): when the active coroutine's module lies inside the subtree
of the module being deleted, `deleteModule` raises the delete-self signal
carrying the target module and performs no deletion — unless the target is
the system module outside the cleanup stage, in which case the system-module
guard fires first and the call fails with that error instead of raising
delete-self; in both cases the simulation state is returned unchanged. -/
theorem c6_deleteModule_defers_to_delete_self (st : SimState) (tgt fuel active : Nat)
    (hact : st.activityModule = some active)
    (hin : containsModule st.parentOf tgt active fuel = true) :
    (¬ (st.systemModule = tgt ∧ st.stage ≠ SimStage.cleanup) →
      deleteModule st tgt fuel = (st, .deleteSelfRaised tgt)) ∧
    (st.systemModule = tgt → st.stage ≠ SimStage.cleanup →
      deleteModule st tgt fuel = (st, .errorSystemModule)) := by
  constructor
  · intro hroot
    simp [deleteModule, hroot, hact, hin]
  · intro h1 h2
    simp [deleteModule, h1, h2]

/-- Closed instances of `c6_deleteModule_defers_to_delete_self`: deleting
module 2 of the chain 0 ← 1 ← 2 ← 3 while module 3's coroutine is active
raises delete-self; deleting the system module 0 in the same state fails
with the system-module error although module 3 lies inside its subtree. -/
theorem c6_deleteModule_defers_to_delete_self_witness :
    deleteModule demoSimState 2 10 = (demoSimState, .deleteSelfRaised 2) ∧
    deleteModule demoSimState 0 10 = (demoSimState, .errorSystemModule) :=
  ⟨(c6_deleteModule_defers_to_delete_self demoSimState 2 10 3 rfl (by decide)).1
      (by decide),
   (c6_deleteModule_defers_to_delete_self demoSimState 0 10 3 rfl (by decide)).2
      rfl (by decide)⟩

/-! ## C10 — the system module is only deletable during cleanup -/

/-- C10: calling `deleteModule()` on the system module fails with an error
whenever the simulation stage is not cleanup, leaving the module tree
unchanged. -/
theorem c10_system_module_delete_requires_cleanup (st : SimState) (fuel : Nat)
    (hstage : st.stage ≠ SimStage.cleanup) :
    deleteModule st st.systemModule fuel = (st, .errorSystemModule) := by
  simp [deleteModule, hstage]

/-- Closed instance of `c10_system_module_delete_requires_cleanup` during the
event stage. -/
theorem c10_system_module_delete_requires_cleanup_witness :
    deleteModule demoSimStateIdle 0 10 = (demoSimStateIdle, .errorSystemModule) :=
  c10_system_module_delete_requires_cleanup demoSimStateIdle 10 (by decide)

/-! ## C9 — best-unit selection condition of cValue::str -/

/-- C9 (counterexample): at the value −5 with unit `s`, the spec's
absolute-value condition does not hold (|−5| = 5 lies in [0.1, 10000)), yet
`cValue::str` consults the unit engine and renders the number converted to
the engine's unit. -/
theorem c9_counterexample_negative_value :
    ¬ specBestUnitCondition (-5) ∧
    strDoubleWithUnit demoGetBestUnit demoConvertUnit (-5) "s".toList =
      (-5000, "ms".toList) := by
  constructor
  · intro hc
    rcases hc with h | h <;> rw [show |(-5 : ℚ)| = 5 by norm_num] at h <;> norm_num at h
  · have ht : (-5 : ℚ) < 1/10 ∨ (-5 : ℚ) ≥ 10000 := by left; norm_num
    simp only [strDoubleWithUnit, if_pos ht, demoGetBestUnit, demoConvertUnit]
    norm_num

/-- C9 (amended): `cValue::str` applies best-unit selection exactly when the
signed value is below 0.1 or at least 10000.  For nonnegative values this
coincides with the spec's absolute-value condition; for negative values the
engine is always consulted. -/
theorem c9_str_best_unit_signed_condition
    (g : ℚ → List Char → List Char) (c : ℚ → List Char → List Char → ℚ)
    (dbl : ℚ) (u : List Char) :
    (bestUnitTriggered dbl →
        strDoubleWithUnit g c dbl u = (c dbl u (g dbl u), g dbl u)) ∧
    (¬ bestUnitTriggered dbl → strDoubleWithUnit g c dbl u = (dbl, u)) ∧
    (0 ≤ dbl → (bestUnitTriggered dbl ↔ specBestUnitCondition dbl)) ∧
    (dbl < 0 → bestUnitTriggered dbl) := by
  refine ⟨?_, ?_, ?_, ?_⟩
  · intro h
    simp only [strDoubleWithUnit, bestUnitTriggered] at h ⊢
    rw [if_pos (by exact_mod_cast h)]
  · intro h
    simp only [strDoubleWithUnit, bestUnitTriggered] at h ⊢
    rw [if_neg (by exact_mod_cast h)]
  · intro h0
    unfold bestUnitTriggered specBestUnitCondition
    rw [abs_of_nonneg h0]
  · intro hneg
    exact Or.inl (by linarith)

/-- Closed instance of `c9_str_best_unit_signed_condition` at the value
20000 s: the trigger fires and the engine's unit is used. -/
theorem c9_str_best_unit_signed_condition_witness :
    strDoubleWithUnit demoGetBestUnit demoConvertUnit 20000 "s".toList =
      (demoConvertUnit 20000 "s".toList (demoGetBestUnit 20000 "s".toList),
       demoGetBestUnit 20000 "s".toList) :=
  (c9_str_best_unit_signed_condition demoGetBestUnit demoConvertUnit 20000
      "s".toList).1 (Or.inr (by norm_num))

/-! ## C2 — setGateSize shrink with connected gates -/

theorem set_getElem?_self {α : Type} (l : List α) (n : Nat) (a : α)
    (h : l[n]? = some a) : l.set n a = l := by
  induction l generalizing n with
  | nil => simp at h
  | cons x xs ih =>
    cases n with
    | zero =>
      simp only [List.getElem?_cons_zero, Option.some_inj] at h
      simp [h]
    | succ m =>
      simp only [List.getElem?_cons_succ] at h
      simp [ih m h]

theorem find?_congr_on {α : Type} (p q : α → Bool) (l : List α)
    (h : ∀ x ∈ l, p x = q x) : l.find? p = l.find? q := by
  induction l with
  | nil => rfl
  | cons a t ih =>
    have ha := h a (by simp)
    cases hpa : p a with
    | true =>
      rw [List.find?_cons_of_pos _ hpa, List.find?_cons_of_pos _ (ha ▸ hpa)]
    | false =>
      rw [List.find?_cons_of_neg _ (by simp [hpa]),
          List.find?_cons_of_neg _ (by simp [← ha, hpa])]
      exact ih fun x hx => h x (by simp [hx])

theorem connAt_take (typ : GateTy) (inv outv : List MGate) (i j : Nat) (h : j < i) :
    connAt typ (inv.take i) (outv.take i) j = connAt typ inv outv j := by
  simp [connAt, List.getD_eq_getElem?_getD, List.getElem?_take, h]

theorem connAt_eq_true_iff (typ : GateTy) (inv outv : List MGate) (j : Nat) :
    connAt typ inv outv j = true ↔
      (typ ≠ GateTy.output ∧ (inv.getD j default).isConnected = true) ∨
      (typ ≠ GateTy.input ∧ (outv.getD j default).isConnected = true) := by
  simp [connAt]

theorem topConnected_take (typ : GateTy) (inv outv : List MGate) (newSize i : Nat) :
    topConnected typ (inv.take i) (outv.take i) newSize i =
      topConnected typ inv outv newSize i := by
  unfold topConnected
  refine find?_congr_on _ _ _ fun x hx => ?_
  have hxlt : x < i := by
    have := List.mem_reverse.mp hx
    have := List.mem_range'_1.mp this
    omega
  exact connAt_take typ inv outv i x hxlt

theorem topConnected_mem_lt (typ : GateTy) (inv outv : List MGate)
    (newSize size j : Nat) (h : topConnected typ inv outv newSize size = some j) :
    newSize ≤ j ∧ j < size := by
  have hmem := List.mem_of_find?_eq_some h
  have := List.mem_range'_1.mp (List.mem_reverse.mp hmem)
  omega

/-- The shrink loop deletes from the top down and stops at the highest
still-connected index in the removal range, leaving that prefix; with no
connection in the range it completes the shrink. -/
theorem shrinkGateVector_spec (typ : GateTy) (newSize : Nat) :
    ∀ (size : Nat) (inv outv : List MGate),
    inv.length ≤ size → outv.length ≤ size → newSize ≤ size →
    shrinkGateVector typ newSize size inv outv =
      match topConnected typ inv outv newSize size with
      | some j => (j + 1, inv.take (j + 1), outv.take (j + 1),
                   some (.connectedGateDeletion j))
      | none => (newSize, inv.take newSize, outv.take newSize, none)
  | 0, inv, outv, hi, ho, hns => by
    have h0 : newSize = 0 := by omega
    have hinv : inv = [] := List.eq_nil_of_length_eq_zero (Nat.le_zero.mp hi)
    have houtv : outv = [] := List.eq_nil_of_length_eq_zero (Nat.le_zero.mp ho)
    subst h0 hinv houtv
    rfl
  | size + 1, inv, outv, hi, ho, hns => by
    by_cases hlt : newSize < size + 1
    · have hrange : size + 1 - newSize = (size - newSize) + 1 := by omega
      have hsplit : topConnected typ inv outv newSize (size + 1) =
          if connAt typ inv outv size then some size
          else topConnected typ inv outv newSize size := by
        unfold topConnected
        rw [hrange, List.range'_concat, List.reverse_append, List.reverse_singleton,
            List.singleton_append,
            show newSize + 1 * (size - newSize) = size by omega]
        cases hc : connAt typ inv outv size with
        | true => rw [List.find?_cons_of_pos _ hc]; rfl
        | false => rw [List.find?_cons_of_neg _ (by simp [hc])]; simp
      by_cases hc : connAt typ inv outv size = true
      · rw [hsplit, if_pos hc]
        have hconn := (connAt_eq_true_iff typ inv outv size).mp hc
        unfold shrinkGateVector
        rw [if_pos hlt]
        rcases hconn with ⟨hty, hg⟩ | ⟨hty, hg⟩
        · rw [if_pos ⟨hty, hg⟩]
          simp [List.take_of_length_le, hi, ho]
        · by_cases hfst : typ ≠ GateTy.output ∧ (inv.getD size default).isConnected = true
          · rw [if_pos hfst]
            simp [List.take_of_length_le, hi, ho]
          · rw [if_neg hfst, if_pos ⟨hty, hg⟩]
            simp [List.take_of_length_le, hi, ho]
      · have hc' : connAt typ inv outv size = false := by
          cases h : connAt typ inv outv size
          · rfl
          · exact absurd h hc
        rw [hsplit, if_neg (by simp [hc'])]
        have hnotfst : ¬ (typ ≠ GateTy.output ∧ (inv.getD size default).isConnected = true) := by
          intro hh
          exact hc ((connAt_eq_true_iff typ inv outv size).mpr (Or.inl hh))
        have hnotsnd : ¬ (typ ≠ GateTy.input ∧ (outv.getD size default).isConnected = true) := by
          intro hh
          exact hc ((connAt_eq_true_iff typ inv outv size).mpr (Or.inr hh))
        unfold shrinkGateVector
        rw [if_pos hlt, if_neg (by simpa using hnotfst), if_neg (by simpa using hnotsnd)]
        have hi' : (inv.take size).length ≤ size := by simp
        have ho' : (outv.take size).length ≤ size := by simp
        rw [shrinkGateVector_spec typ newSize size (inv.take size) (outv.take size)
              hi' ho' (by omega)]
        rw [topConnected_take]
        cases htc : topConnected typ inv outv newSize size with
        | some j =>
          have hj := topConnected_mem_lt typ inv outv newSize size j htc
          simp only [List.take_take]
          rw [show min (j + 1) size = j + 1 by omega]
        | none =>
          simp only [List.take_take]
          rw [show min newSize size = newSize by omega]
    · have hsz : newSize = size + 1 := by omega
      subst hsz
      unfold shrinkGateVector
      rw [if_neg (by omega)]
      have : topConnected typ inv outv (size + 1) (size + 1) = none := by
        unfold topConnected
        rw [show size + 1 - (size + 1) = 0 by omega]
        rfl
      rw [this]
      simp [List.take_of_length_le, hi, ho]

/-- C2 (counterexample): shrinking the vector gate `out[2]` to size 0 while
`out[0]` is still connected fails with the connected-gate error as the claim
says, but the gate vector is not left unchanged: gate `out[1]` has been
deleted and the vector size reduced from 2 to 1. -/
theorem c2_counterexample_partial_shrink :
    (setGateSize ⟨[demoShrinkDesc]⟩ "out".toList 0).2 =
      some (.connectedGateDeletion 0) ∧
    (setGateSize ⟨[demoShrinkDesc]⟩ "out".toList 0).1 ≠ ⟨[demoShrinkDesc]⟩ ∧
    ((setGateSize ⟨[demoShrinkDesc]⟩ "out".toList 0).1.descs.getD 0 default).vectorSize
      = 1 := by
  decide

/-- C2 (amended): when `setGateSize` shrinks a vector gate and some gate in
the removal range is still connected, the call fails with the
connected-gate-deletion error; the gates above the highest still-connected
removed index `j` have however already been deleted and the vector size
lowered to `j + 1` — the vector is left fully unchanged exactly when the
topmost removed gate is among the connected ones. -/
theorem c2_shrink_fails_with_partial_mutation (m : ModuleGates) (gatename : List Char)
    (di : Nat) (d : GateDesc) (newSize : Int) (j : Nat)
    (hfind : findGateDesc m.descs gatename = some (di, Char.ofNat 0))
    (hd : m.descs[di]? = some d)
    (hlen_i : d.inputGatev.length ≤ d.vectorSize.toNat)
    (hlen_o : d.outputGatev.length ≤ d.vectorSize.toNat)
    (h0 : 0 ≤ newSize) (hlt : newSize < d.vectorSize)
    (hmax : newSize ≤ MAX_VECTORGATESIZE)
    (htop : topConnected d.typ d.inputGatev d.outputGatev newSize.toNat
              d.vectorSize.toNat = some j) :
    setGateSize m gatename newSize =
      (⟨m.descs.set di (shrunkDesc d j)⟩, some (.connectedGateDeletion j)) ∧
    (j + 1 = d.vectorSize.toNat →
      setGateSize m gatename newSize = (m, some (.connectedGateDeletion j))) := by
  have hvecpos : (0 : Int) ≤ d.vectorSize := by omega
  have hgetD : m.descs.getD di default = d := by
    rw [List.getD_eq_getElem?_getD, hd]; rfl
  have hvec : d.isVector = true := by
    simp [GateDesc.isVector]; omega
  have hns : newSize.toNat < d.vectorSize.toNat := by omega
  have hmain : setGateSize m gatename newSize =
      (⟨m.descs.set di (shrunkDesc d j)⟩, some (.connectedGateDeletion j)) := by
    unfold setGateSize
    rw [hfind]
    simp only [hgetD]
    rw [if_neg (by simp), if_neg (by simp [hvec]), if_neg (by omega), if_neg (by omega),
        if_pos hns]
    rw [shrinkGateVector_spec d.typ newSize.toNat d.vectorSize.toNat
          d.inputGatev d.outputGatev hlen_i hlen_o (by omega)]
    rw [htop]
    rfl
  refine ⟨hmain, fun hj => ?_⟩
  rw [hmain]
  have hsz : ((j + 1 : Nat) : Int) = d.vectorSize := by omega
  have hti : d.inputGatev.take (j + 1) = d.inputGatev :=
    List.take_of_length_le (by omega)
  have hto : d.outputGatev.take (j + 1) = d.outputGatev :=
    List.take_of_length_le (by omega)
  have hdd : shrunkDesc d j = d := by
    unfold shrunkDesc
    rw [hsz, hti, hto]
  rw [hdd, set_getElem?_self m.descs di d hd]

/-- Closed instance of `c2_shrink_fails_with_partial_mutation` at the C2
scenario module. -/
theorem c2_shrink_fails_with_partial_mutation_witness :
    setGateSize ⟨[demoShrinkDesc]⟩ "out".toList 0 =
      (⟨[demoShrinkDesc].set 0 (shrunkDesc demoShrinkDesc 0)⟩,
       some (.connectedGateDeletion 0)) :=
  (c2_shrink_fails_with_partial_mutation ⟨[demoShrinkDesc]⟩ "out".toList 0
      demoShrinkDesc 0 0 (by decide) (by decide) (by decide) (by decide)
      (by decide) (by decide) (by decide) (by decide)).1

/-! ## C7 — deletion notification order -/

/-- C7: for every module deletion, the pre-delete notification (when the
module has pre-change listeners) is the very first event of the deletion
trace, before any mutation; and when the parent has post-change listeners,
the post-delete notification is emitted on the parent strictly after the
`destroy` of the module object and carries the saved record
(moduleId, name, type, vectorSize, index, parent) rather than the module
itself. -/
theorem c7_delete_notification_order (pre post : Nat → Bool) (id : Nat)
    (info : ModInfo) (sc vc : List MTree) (p : Nat) (hpost : post p = true) :
    (pre id = true →
      (doDeleteModuleTrace pre post (some p) (.node id info sc vc)).head? =
        some (.preModuleDelete id)) ∧
    ∃ evs, doDeleteModuleTrace pre post (some p) (.node id info sc vc) =
        evs ++ [.destroy id, .postModuleDelete p (savedRecord id info p)] := by
  constructor
  · intro hpre
    simp [doDeleteModuleTrace, hpre]
  · refine ⟨(if pre id then [DelEv.preModuleDelete id] else [])
      ++ [DelEv.envirModuleDeleted id] ++ [DelEv.disconnectOutside id]
      ++ deleteScalarsTrace pre post id sc
      ++ deleteVectorSlotsTrace pre post id vc
      ++ [DelEv.disconnectInside id, DelEv.clearGates id,
          DelEv.releaseLocalListeners id], ?_⟩
    simp [doDeleteModuleTrace, hpost]

/-- Closed instance of `c7_delete_notification_order` at the five-module
demonstration subtree with all listeners present. -/
theorem c7_delete_notification_order_witness :
    ((fun _ => true : Nat → Bool) 3 = true →
      (doDeleteModuleTrace (fun _ => true) (fun _ => true) (some 99) demoTree).head? =
        some (.preModuleDelete 3)) ∧
    ∃ evs, doDeleteModuleTrace (fun _ => true) (fun _ => true) (some 99) demoTree =
        evs ++ [.destroy 3, .postModuleDelete 99 (savedRecord 3 demoInfo 99)] :=
  c7_delete_notification_order (fun _ => true) (fun _ => true) 3 demoInfo
    [.node 7 demoInfo [] [], .node 1 demoInfo [.node 9 demoInfo [] []] []]
    [.node 5 { demoInfo with vectorIndex := 0, vectorSize := 1 } [] []] 99 rfl

/-! ## C4 — id reassignment on reparenting rewrites the FES -/

theorem range'_append_nat (s m n : Nat) :
    List.range' s m ++ List.range' (s + m) n = List.range' s (m + n) := by
  have h := List.range'_append s m n 1
  simp only [one_mul] at h
  rw [Nat.add_comm m n]
  exact h

theorem newIdFor_not_mem (l : List Nat) (base a : Nat) (h : a ∉ l) :
    newIdFor l base a = a := by
  simp [newIdFor, h]

theorem newIdFor_singleton (id n a : Nat) :
    newIdFor [id] n a = if a = id then n else a := by
  by_cases h : a = id <;> simp [newIdFor, h]

theorem newIdFor_append (l1 l2 : List Nat) (n : Nat)
    (_h1 : ∀ i ∈ l1, i < n) (h2 : ∀ i ∈ l2, i < n) (a : Nat) :
    newIdFor l2 (n + l1.length) (newIdFor l1 n a) = newIdFor (l1 ++ l2) n a := by
  by_cases ha1 : a ∈ l1
  · have hno : n + l1.indexOf a ∉ l2 := by
      intro hmem
      have := h2 _ hmem
      omega
    rw [show newIdFor l1 n a = n + l1.indexOf a by simp [newIdFor, ha1],
        newIdFor_not_mem _ _ _ hno]
    simp [newIdFor, ha1, List.indexOf_append_of_mem ha1]
  · rw [newIdFor_not_mem _ _ _ ha1]
    by_cases ha2 : a ∈ l2
    · simp only [newIdFor, if_pos ha2, if_pos (List.mem_append_right l1 ha2),
        List.indexOf_append_of_not_mem ha1]
      omega
    · rw [newIdFor_not_mem _ _ _ ha2, newIdFor_not_mem]
      simp [ha1, ha2]

mutual
theorem reassign_spec : ∀ (t : MTree) (n : Nat) (fes : List Nat),
    (∀ i ∈ idsOf t, i < n) →
    idsOf (reassignModuleIdRec t n fes).1 = List.range' n (idsOf t).length ∧
    eraseIds (reassignModuleIdRec t n fes).1 = eraseIds t ∧
    (reassignModuleIdRec t n fes).2.1 = n + (idsOf t).length ∧
    (reassignModuleIdRec t n fes).2.2 = fes.map (newIdFor (idsOf t) n)
  | .node oldId info sc vc, n, fes, h => by
    have hid : oldId < n := h oldId (by simp [idsOf])
    have hsc0 : ∀ i ∈ idsOfList sc, i < n := fun i hi =>
      h i (by simp [idsOf]; exact Or.inr (Or.inl hi))
    have hvc0 : ∀ i ∈ idsOfList vc, i < n := fun i hi =>
      h i (by simp [idsOf]; exact Or.inr (Or.inr hi))
    have hsc : ∀ i ∈ idsOfList sc, i < n + 1 := fun i hi =>
      Nat.lt_succ_of_lt (hsc0 i hi)
    obtain ⟨hs1, hs2, hs3, hs4⟩ :=
      reassignChildren_spec sc (n + 1)
        (fes.map (fun a => if a = oldId then n else a)) hsc
    have hvc : ∀ i ∈ idsOfList vc,
        i < (reassignChildren sc (n + 1)
              (fes.map (fun a => if a = oldId then n else a))).2.1 := by
      rw [hs3]
      exact fun i hi => by have := hvc0 i hi; omega
    obtain ⟨hv1, hv2, hv3, hv4⟩ :=
      reassignChildren_spec vc _ _ hvc
    refine ⟨?_, ?_, ?_, ?_⟩
    · show (n :: (idsOfList _ ++ idsOfList _)) = _
      rw [hs1, hv1, hs3]
      rw [show n + 1 + (idsOfList sc).length = (n + 1) + (idsOfList sc).length by rfl]
      rw [range'_append_nat (n + 1) (idsOfList sc).length (idsOfList vc).length]
      rw [show (idsOf (MTree.node oldId info sc vc)).length =
            ((idsOfList sc).length + (idsOfList vc).length) + 1 by
          simp [idsOf]]
      rw [List.range'_succ]
    · show MTree.node 0 info (eraseIdsList _) (eraseIdsList _) = _
      rw [hs2, hv2]
      rfl
    · show (reassignChildren vc _ _).2.1 = _
      rw [hv3, hs3]
      simp [idsOf]
      omega
    · show (reassignChildren vc _ _).2.2 = _
      rw [hv4, hs4, hs3]
      simp only [List.map_map]
      refine List.map_congr_left fun a _ => ?_
      show newIdFor (idsOfList vc) (n + 1 + (idsOfList sc).length)
          (newIdFor (idsOfList sc) (n + 1) (if a = oldId then n else a)) = _
      rw [← newIdFor_singleton oldId n a]
      rw [show n + 1 = n + ([oldId] : List Nat).length by rfl]
      rw [newIdFor_append [oldId] (idsOfList sc) n
            (by simpa using hid) hsc0 a]
      rw [show n + ([oldId] : List Nat).length + (idsOfList sc).length =
            n + ([oldId] ++ idsOfList sc).length by
          simp only [List.singleton_append, List.length_cons, List.length_nil]
          omega]
      rw [newIdFor_append ([oldId] ++ idsOfList sc) (idsOfList vc) n
            (by simpa using ⟨hid, hsc0⟩) hvc0 a]
      have : ([oldId] ++ idsOfList sc) ++ idsOfList vc =
          idsOf (MTree.node oldId info sc vc) := by
        simp [idsOf]
      rw [this]

theorem reassignChildren_spec : ∀ (cs : List MTree) (n : Nat) (fes : List Nat),
    (∀ i ∈ idsOfList cs, i < n) →
    idsOfList (reassignChildren cs n fes).1 = List.range' n (idsOfList cs).length ∧
    eraseIdsList (reassignChildren cs n fes).1 = eraseIdsList cs ∧
    (reassignChildren cs n fes).2.1 = n + (idsOfList cs).length ∧
    (reassignChildren cs n fes).2.2 = fes.map (newIdFor (idsOfList cs) n)
  | [], n, fes, _ => by
    refine ⟨rfl, rfl, by simp [reassignChildren, idsOfList], ?_⟩
    show fes = fes.map (newIdFor [] n)
    have hall : ∀ a : Nat, newIdFor [] n a = a := fun a =>
      newIdFor_not_mem [] n a (by simp)
    rw [show newIdFor ([] : List Nat) n = id from funext hall, List.map_id]
  | c :: rest, n, fes, h => by
    have hc0 : ∀ i ∈ idsOf c, i < n := fun i hi =>
      h i (by simp [idsOfList]; exact Or.inl hi)
    have hr0 : ∀ i ∈ idsOfList rest, i < n := fun i hi =>
      h i (by simp [idsOfList]; exact Or.inr hi)
    obtain ⟨hc1, hc2, hc3, hc4⟩ := reassign_spec c n fes hc0
    have hrlt : ∀ i ∈ idsOfList rest, i < (reassignModuleIdRec c n fes).2.1 := by
      rw [hc3]
      exact fun i hi => by have := hr0 i hi; omega
    obtain ⟨hr1, hr2, hr3, hr4⟩ := reassignChildren_spec rest _ _ hrlt
    refine ⟨?_, ?_, ?_, ?_⟩
    · show idsOf _ ++ idsOfList _ = _
      rw [hc1, hr1, hc3]
      rw [range'_append_nat n (idsOf c).length (idsOfList rest).length]
      rw [show (idsOfList (c :: rest)).length =
            (idsOf c).length + (idsOfList rest).length by simp [idsOfList]]
    · show eraseIds _ :: eraseIdsList _ = _
      rw [hc2, hr2]
      rfl
    · show (reassignChildren rest _ _).2.1 = _
      rw [hr3, hc3]
      simp [idsOfList]
      omega
    · show (reassignChildren rest _ _).2.2 = _
      rw [hr4, hc4, hc3]
      simp only [List.map_map]
      refine List.map_congr_left fun a _ => ?_
      show newIdFor (idsOfList rest) (n + (idsOf c).length)
          (newIdFor (idsOf c) n a) = _
      rw [newIdFor_append (idsOf c) (idsOfList rest) n hc0 hr0 a]
      rfl
end

/-- C4: after `reassignModuleIdRec` on a subtree (as performed by
`changeParentTo`), every module of the subtree carries a fresh id — the
preorder id list becomes the contiguous range starting at the registry's
next id, beyond every previously assigned id — the tree structure and module
attributes are unchanged, and every FES message arrival-module id is
rewritten by exactly the old-id-to-new-id correspondence of the subtree
(ids outside the subtree are untouched). -/
theorem c4_reassign_fresh_ids_and_fes_rewrite (t : MTree) (nextId : Nat)
    (fes : List Nat) (h : ∀ i ∈ idsOf t, i < nextId) :
    idsOf (reassignModuleIdRec t nextId fes).1 =
      List.range' nextId (idsOf t).length ∧
    eraseIds (reassignModuleIdRec t nextId fes).1 = eraseIds t ∧
    (reassignModuleIdRec t nextId fes).2.2 =
      fes.map (newIdFor (idsOf t) nextId) :=
  ⟨(reassign_spec t nextId fes h).1, (reassign_spec t nextId fes h).2.1,
   (reassign_spec t nextId fes h).2.2.2⟩

/-- Closed instance of `c4_reassign_fresh_ids_and_fes_rewrite` at the
five-module demonstration subtree with registry counter 100. -/
theorem c4_reassign_fresh_ids_and_fes_rewrite_witness :
    idsOf (reassignModuleIdRec demoTree 100 [3, 9, 42, 5, 7]).1 =
      List.range' 100 (idsOf demoTree).length ∧
    eraseIds (reassignModuleIdRec demoTree 100 [3, 9, 42, 5, 7]).1 =
      eraseIds demoTree ∧
    (reassignModuleIdRec demoTree 100 [3, 9, 42, 5, 7]).2.2 =
      [3, 9, 42, 5, 7].map (newIdFor (idsOf demoTree) 100) :=
  c4_reassign_fresh_ids_and_fes_rewrite demoTree 100 [3, 9, 42, 5, 7] (by decide)

/-! ## C5 — gate id encoding and decoding -/

theorem gateById_scalar_ok (m : ModuleGates) (di : Nat) (d : GateDesc) (isOut : Bool)
    (g : MGate) (hd : m.descs[di]? = some d) (hname : d.name ≠ none)
    (hscalar : d.vectorSize = -1) (hdi : di < 2 ^ (GATEID_LBITS - 1))
    (hgate : (if isOut then d.outputGate else d.inputGate) = some g)
    (htyp : if isOut then d.typ ≠ GateTy.input else d.typ ≠ GateTy.output)
    (hpos : g.pos % 2 = (if isOut then 1 else 0)) :
    gateById m (encodeScalarGateId di isOut) = .ok g := by
  have hvecF : d.isVector = false := by
    simp [GateDesc.isVector, hscalar]
  simp only [GATEID_LBITS] at hdi
  norm_num at hdi
  cases isOut
  · simp only [if_false, Bool.false_eq_true] at hgate htyp hpos
    have hid : encodeScalarGateId di false = 2 * di := by
      simp [encodeScalarGateId]
    rw [hid]
    unfold gateById
    rw [if_pos (by simp only [GATEID_LBITS]; norm_num; omega)]
    rw [show 2 * di / 2 = di by omega, hd]
    simp only []
    rw [if_neg hname, if_neg (by simp [hvecF])]
    rw [if_neg (by rw [if_pos (show 2 * di % 2 = 0 by omega)]; exact htyp)]
    rw [if_pos (show 2 * di % 2 = 0 by omega), hgate]
    simp only []
    rw [if_pos (by omega)]
  · simp only [if_true] at hgate htyp hpos
    have hid : encodeScalarGateId di true = 2 * di + 1 := by
      simp [encodeScalarGateId]
    rw [hid]
    unfold gateById
    rw [if_pos (by simp only [GATEID_LBITS]; norm_num; omega)]
    rw [show (2 * di + 1) / 2 = di by omega, hd]
    simp only []
    rw [if_neg hname, if_neg (by simp [hvecF])]
    rw [if_neg (by rw [if_neg (show ¬ (2 * di + 1) % 2 = 0 by omega)]; exact htyp)]
    rw [if_neg (show ¬ (2 * di + 1) % 2 = 0 by omega), hgate]
    simp only []
    rw [if_pos (by omega)]

theorem gateById_vector_ok (m : ModuleGates) (di : Nat) (d : GateDesc) (isOut : Bool)
    (index : Nat) (g : MGate) (hd : m.descs[di]? = some d) (hname : d.name ≠ none)
    (hvec : 0 ≤ d.vectorSize) (hindex : index < d.vectorSize.toNat)
    (hidxbound : index < 2 ^ (GATEID_LBITS - 1))
    (htyp : if isOut then d.typ ≠ GateTy.input else d.typ ≠ GateTy.output)
    (hg : (if isOut then d.outputGatev else d.inputGatev)[index]? = some g) :
    gateById m (encodeVectorGateId di isOut index) = .ok g := by
  have hvecT : d.isVector = true := by
    simp [GateDesc.isVector]
    omega
  simp only [GATEID_LBITS] at hidxbound
  norm_num at hidxbound
  cases isOut
  · simp only [if_false, Bool.false_eq_true] at htyp hg
    have hid : encodeVectorGateId di false index = (di + 1) * 1048576 + index := by
      simp [encodeVectorGateId, GATEID_LBITS]
    rw [hid]
    unfold gateById
    rw [if_neg (by simp only [GATEID_LBITS]; norm_num; omega)]
    rw [show ((di + 1) * 1048576 + index) / 2 ^ GATEID_LBITS - 1 = di by
          simp only [GATEID_LBITS]; norm_num; omega, hd]
    simp only []
    rw [if_neg hname, if_neg (by simp [hvecT])]
    rw [if_neg (by
          rw [if_neg (show ¬ ((di + 1) * 1048576 + index) / 2 ^ (GATEID_LBITS - 1) % 2 = 1 by
            simp only [GATEID_LBITS]; norm_num; omega)]
          exact htyp)]
    rw [if_neg (show ¬ ((di + 1) * 1048576 + index) / 2 ^ (GATEID_LBITS - 1) % 2 = 1 by
          simp only [GATEID_LBITS]; norm_num; omega)]
    rw [if_neg (show ¬ ((di + 1) * 1048576 + index) % 2 ^ (GATEID_LBITS - 1) ≥ d.vectorSize.toNat by
          simp only [GATEID_LBITS]
          rw [show (2 : Nat) ^ (20 - 1) = 524288 by norm_num]
          omega)]
    rw [show ((di + 1) * 1048576 + index) % 2 ^ (GATEID_LBITS - 1) = index by
          simp only [GATEID_LBITS]
          rw [show (2 : Nat) ^ (20 - 1) = 524288 by norm_num]
          omega]
    rw [hg]
  · simp only [if_true] at htyp hg
    have hid : encodeVectorGateId di true index =
        (di + 1) * 1048576 + 524288 + index := by
      simp [encodeVectorGateId, GATEID_LBITS]
    rw [hid]
    unfold gateById
    rw [if_neg (by simp only [GATEID_LBITS]; norm_num; omega)]
    rw [show ((di + 1) * 1048576 + 524288 + index) / 2 ^ GATEID_LBITS - 1 = di by
          simp only [GATEID_LBITS]; norm_num; omega, hd]
    simp only []
    rw [if_neg hname, if_neg (by simp [hvecT])]
    rw [if_neg (by
          rw [if_pos (show ((di + 1) * 1048576 + 524288 + index) / 2 ^ (GATEID_LBITS - 1) % 2 = 1 by
            simp only [GATEID_LBITS]; norm_num; omega)]
          exact htyp)]
    rw [if_pos (show ((di + 1) * 1048576 + 524288 + index) / 2 ^ (GATEID_LBITS - 1) % 2 = 1 by
          simp only [GATEID_LBITS]; norm_num; omega)]
    rw [if_neg (show ¬ ((di + 1) * 1048576 + 524288 + index) % 2 ^ (GATEID_LBITS - 1) ≥ d.vectorSize.toNat by
          simp only [GATEID_LBITS]
          rw [show (2 : Nat) ^ (20 - 1) = 524288 by norm_num]
          omega)]
    rw [show ((di + 1) * 1048576 + 524288 + index) % 2 ^ (GATEID_LBITS - 1) = index by
          simp only [GATEID_LBITS]
          rw [show (2 : Nat) ^ (20 - 1) = 524288 by norm_num]
          omega]
    rw [hg]

theorem gateById_scalar_desc_out_of_range (m : ModuleGates) (id : Nat)
    (hlow : id < 2 ^ GATEID_LBITS) (hout : m.descs.length ≤ id / 2) :
    gateById m id = .error .gateIdInvalid := by
  unfold gateById
  rw [if_pos hlow]
  rw [show m.descs[id / 2]? = none from List.getElem?_eq_none hout]

theorem gateById_vector_desc_out_of_range (m : ModuleGates) (id : Nat)
    (hhigh : 2 ^ GATEID_LBITS ≤ id)
    (hout : m.descs.length ≤ id / 2 ^ GATEID_LBITS - 1) :
    gateById m id = .error .gateIdInvalid := by
  unfold gateById
  rw [if_neg (by omega)]
  rw [show m.descs[id / 2 ^ GATEID_LBITS - 1]? = none from List.getElem?_eq_none hout]

theorem gateById_vector_index_out_of_range (m : ModuleGates) (di : Nat) (d : GateDesc)
    (isOut : Bool) (index : Nat) (hd : m.descs[di]? = some d) (hname : d.name ≠ none)
    (hvec : 0 ≤ d.vectorSize)
    (htyp : if isOut then d.typ ≠ GateTy.input else d.typ ≠ GateTy.output)
    (hindex : d.vectorSize.toNat ≤ index) (hidxbound : index < 2 ^ (GATEID_LBITS - 1)) :
    gateById m (encodeVectorGateId di isOut index) = .error .gateIdInvalid := by
  have hvecT : d.isVector = true := by
    simp [GateDesc.isVector]
    omega
  simp only [GATEID_LBITS] at hidxbound
  norm_num at hidxbound
  cases isOut
  · simp only [if_false, Bool.false_eq_true] at htyp
    have hid : encodeVectorGateId di false index = (di + 1) * 1048576 + index := by
      simp [encodeVectorGateId, GATEID_LBITS]
    rw [hid]
    unfold gateById
    rw [if_neg (by simp only [GATEID_LBITS]; norm_num; omega)]
    rw [show ((di + 1) * 1048576 + index) / 2 ^ GATEID_LBITS - 1 = di by
          simp only [GATEID_LBITS]; norm_num; omega, hd]
    simp only []
    rw [if_neg hname, if_neg (by simp [hvecT])]
    rw [if_neg (by
          rw [if_neg (show ¬ ((di + 1) * 1048576 + index) / 2 ^ (GATEID_LBITS - 1) % 2 = 1 by
            simp only [GATEID_LBITS]; norm_num; omega)]
          exact htyp)]
    rw [if_pos (show ((di + 1) * 1048576 + index) % 2 ^ (GATEID_LBITS - 1) ≥ d.vectorSize.toNat by
          simp only [GATEID_LBITS]
          rw [show (2 : Nat) ^ (20 - 1) = 524288 by norm_num]
          omega)]
  · simp only [if_true] at htyp
    have hid : encodeVectorGateId di true index =
        (di + 1) * 1048576 + 524288 + index := by
      simp [encodeVectorGateId, GATEID_LBITS]
    rw [hid]
    unfold gateById
    rw [if_neg (by simp only [GATEID_LBITS]; norm_num; omega)]
    rw [show ((di + 1) * 1048576 + 524288 + index) / 2 ^ GATEID_LBITS - 1 = di by
          simp only [GATEID_LBITS]; norm_num; omega, hd]
    simp only []
    rw [if_neg hname, if_neg (by simp [hvecT])]
    rw [if_neg (by
          rw [if_pos (show ((di + 1) * 1048576 + 524288 + index) / 2 ^ (GATEID_LBITS - 1) % 2 = 1 by
            simp only [GATEID_LBITS]; norm_num; omega)]
          exact htyp)]
    rw [if_pos (show ((di + 1) * 1048576 + 524288 + index) % 2 ^ (GATEID_LBITS - 1) ≥ d.vectorSize.toNat by
          simp only [GATEID_LBITS]
          rw [show (2 : Nat) ^ (20 - 1) = 524288 by norm_num]
          omega)]

theorem gateById_scalar_direction_mismatch (m : ModuleGates) (di : Nat) (d : GateDesc)
    (isOut : Bool) (hd : m.descs[di]? = some d) (hname : d.name ≠ none)
    (hscalar : d.vectorSize = -1) (hdi : di < 2 ^ (GATEID_LBITS - 1))
    (htyp : if isOut then d.typ = GateTy.input else d.typ = GateTy.output) :
    gateById m (encodeScalarGateId di isOut) = .error .gateIdInvalid := by
  have hvecF : d.isVector = false := by
    simp [GateDesc.isVector, hscalar]
  simp only [GATEID_LBITS] at hdi
  norm_num at hdi
  cases isOut
  · simp only [if_false, Bool.false_eq_true] at htyp
    have hid : encodeScalarGateId di false = 2 * di := by
      simp [encodeScalarGateId]
    rw [hid]
    unfold gateById
    rw [if_pos (by simp only [GATEID_LBITS]; norm_num; omega)]
    rw [show 2 * di / 2 = di by omega, hd]
    simp only []
    rw [if_neg hname, if_neg (by simp [hvecF])]
    rw [if_pos (by rw [if_pos (show 2 * di % 2 = 0 by omega)]; exact htyp)]
  · simp only [if_true] at htyp
    have hid : encodeScalarGateId di true = 2 * di + 1 := by
      simp [encodeScalarGateId]
    rw [hid]
    unfold gateById
    rw [if_pos (by simp only [GATEID_LBITS]; norm_num; omega)]
    rw [show (2 * di + 1) / 2 = di by omega, hd]
    simp only []
    rw [if_neg hname, if_neg (by simp [hvecF])]
    rw [if_pos (by rw [if_neg (show ¬ (2 * di + 1) % 2 = 0 by omega)]; exact htyp)]

theorem gateById_vector_direction_mismatch (m : ModuleGates) (di : Nat) (d : GateDesc)
    (isOut : Bool) (index : Nat) (hd : m.descs[di]? = some d) (hname : d.name ≠ none)
    (hvec : 0 ≤ d.vectorSize) (hidxbound : index < 2 ^ (GATEID_LBITS - 1))
    (htyp : if isOut then d.typ = GateTy.input else d.typ = GateTy.output) :
    gateById m (encodeVectorGateId di isOut index) = .error .gateIdInvalid := by
  have hvecT : d.isVector = true := by
    simp [GateDesc.isVector]
    omega
  simp only [GATEID_LBITS] at hidxbound
  norm_num at hidxbound
  cases isOut
  · simp only [if_false, Bool.false_eq_true] at htyp
    have hid : encodeVectorGateId di false index = (di + 1) * 1048576 + index := by
      simp [encodeVectorGateId, GATEID_LBITS]
    rw [hid]
    unfold gateById
    rw [if_neg (by simp only [GATEID_LBITS]; norm_num; omega)]
    rw [show ((di + 1) * 1048576 + index) / 2 ^ GATEID_LBITS - 1 = di by
          simp only [GATEID_LBITS]; norm_num; omega, hd]
    simp only []
    rw [if_neg hname, if_neg (by simp [hvecT])]
    rw [if_pos (by
          rw [if_neg (show ¬ ((di + 1) * 1048576 + index) / 2 ^ (GATEID_LBITS - 1) % 2 = 1 by
            simp only [GATEID_LBITS]; norm_num; omega)]
          exact htyp)]
  · simp only [if_true] at htyp
    have hid : encodeVectorGateId di true index =
        (di + 1) * 1048576 + 524288 + index := by
      simp [encodeVectorGateId, GATEID_LBITS]
    rw [hid]
    unfold gateById
    rw [if_neg (by simp only [GATEID_LBITS]; norm_num; omega)]
    rw [show ((di + 1) * 1048576 + 524288 + index) / 2 ^ GATEID_LBITS - 1 = di by
          simp only [GATEID_LBITS]; norm_num; omega, hd]
    simp only []
    rw [if_neg hname, if_neg (by simp [hvecT])]
    rw [if_pos (by
          rw [if_pos (show ((di + 1) * 1048576 + 524288 + index) / 2 ^ (GATEID_LBITS - 1) % 2 = 1 by
            simp only [GATEID_LBITS]; norm_num; omega)]
          exact htyp)]

/-- C5: looking a live gate up by its own id returns that same gate — for
scalar gates under id `(descIndex << 1) | isOutput` and for vector gates
under id `((descIndex+1) << L) | (isOutput << (L-1)) | index` — while ids
whose descriptor index is out of range (in either encoding), whose encoded
direction does not exist on the descriptor (the direction bit asks for the
output half of an input-only gate or vice versa), or whose vector index is
at or beyond the vector size decode to the gate-id-invalid error rather
than to some other gate. -/
theorem c5_gate_id_encode_decode :
    (∀ (m : ModuleGates) (di : Nat) (d : GateDesc) (isOut : Bool) (g : MGate),
        m.descs[di]? = some d → d.name ≠ none → d.vectorSize = -1 →
        di < 2 ^ (GATEID_LBITS - 1) →
        (if isOut then d.outputGate else d.inputGate) = some g →
        (if isOut then d.typ ≠ GateTy.input else d.typ ≠ GateTy.output) →
        g.pos % 2 = (if isOut then 1 else 0) →
        gateById m (encodeScalarGateId di isOut) = .ok g) ∧
    (∀ (m : ModuleGates) (di : Nat) (d : GateDesc) (isOut : Bool) (index : Nat)
        (g : MGate),
        m.descs[di]? = some d → d.name ≠ none → 0 ≤ d.vectorSize →
        index < d.vectorSize.toNat → index < 2 ^ (GATEID_LBITS - 1) →
        (if isOut then d.typ ≠ GateTy.input else d.typ ≠ GateTy.output) →
        (if isOut then d.outputGatev else d.inputGatev)[index]? = some g →
        gateById m (encodeVectorGateId di isOut index) = .ok g) ∧
    (∀ (m : ModuleGates) (id : Nat), id < 2 ^ GATEID_LBITS →
        m.descs.length ≤ id / 2 → gateById m id = .error .gateIdInvalid) ∧
    (∀ (m : ModuleGates) (id : Nat), 2 ^ GATEID_LBITS ≤ id →
        m.descs.length ≤ id / 2 ^ GATEID_LBITS - 1 →
        gateById m id = .error .gateIdInvalid) ∧
    (∀ (m : ModuleGates) (di : Nat) (d : GateDesc) (isOut : Bool) (index : Nat),
        m.descs[di]? = some d → d.name ≠ none → 0 ≤ d.vectorSize →
        (if isOut then d.typ ≠ GateTy.input else d.typ ≠ GateTy.output) →
        d.vectorSize.toNat ≤ index → index < 2 ^ (GATEID_LBITS - 1) →
        gateById m (encodeVectorGateId di isOut index) = .error .gateIdInvalid) ∧
    (∀ (m : ModuleGates) (di : Nat) (d : GateDesc) (isOut : Bool),
        m.descs[di]? = some d → d.name ≠ none → d.vectorSize = -1 →
        di < 2 ^ (GATEID_LBITS - 1) →
        (if isOut then d.typ = GateTy.input else d.typ = GateTy.output) →
        gateById m (encodeScalarGateId di isOut) = .error .gateIdInvalid) ∧
    (∀ (m : ModuleGates) (di : Nat) (d : GateDesc) (isOut : Bool) (index : Nat),
        m.descs[di]? = some d → d.name ≠ none → 0 ≤ d.vectorSize →
        index < 2 ^ (GATEID_LBITS - 1) →
        (if isOut then d.typ = GateTy.input else d.typ = GateTy.output) →
        gateById m (encodeVectorGateId di isOut index) = .error .gateIdInvalid) :=
  ⟨fun m di d isOut g hd h1 h2 h3 h4 h5 h6 =>
      gateById_scalar_ok m di d isOut g hd h1 h2 h3 h4 h5 h6,
   fun m di d isOut index g hd h1 h2 h3 h4 h5 h6 =>
      gateById_vector_ok m di d isOut index g hd h1 h2 h3 h4 h5 h6,
   fun m id h1 h2 => gateById_scalar_desc_out_of_range m id h1 h2,
   fun m id h1 h2 => gateById_vector_desc_out_of_range m id h1 h2,
   fun m di d isOut index hd h1 h2 h3 h4 h5 =>
      gateById_vector_index_out_of_range m di d isOut index hd h1 h2 h3 h4 h5,
   fun m di d isOut hd h1 h2 h3 h4 =>
      gateById_scalar_direction_mismatch m di d isOut hd h1 h2 h3 h4,
   fun m di d isOut index hd h1 h2 h3 h4 =>
      gateById_vector_direction_mismatch m di d isOut index hd h1 h2 h3 h4⟩

/-- Closed instance of `c5_gate_id_encode_decode` on the demonstration
module: the scalar gate, an inout-vector gate, two out-of-range ids, and
two direction-mismatch ids (the output half of the input-only scalar `in`,
and the input side of the output-only vector `q[]`). -/
theorem c5_gate_id_encode_decode_witness :
    gateById demoGateModule (encodeScalarGateId 0 false) =
      .ok { pos := 0, label := 20 } ∧
    gateById demoGateModule (encodeVectorGateId 1 true 2) =
      .ok { pos := 9, label := 42 } ∧
    gateById demoGateModule 10 = .error .gateIdInvalid ∧
    gateById demoGateModule (encodeVectorGateId 5 false 0) =
      .error .gateIdInvalid ∧
    gateById demoGateModule (encodeVectorGateId 1 false 7) =
      .error .gateIdInvalid ∧
    gateById demoGateModule (encodeScalarGateId 0 true) =
      .error .gateIdInvalid ∧
    gateById demoGateModule (encodeVectorGateId 2 false 0) =
      .error .gateIdInvalid :=
  ⟨c5_gate_id_encode_decode.1 demoGateModule 0
      { name := some "in".toList, typ := GateTy.input, vectorSize := -1,
        inputGate := some { pos := 0, label := 20 } } false
      { pos := 0, label := 20 } (by decide) (by decide) (by decide) (by decide)
      (by decide) (by decide) (by decide),
   c5_gate_id_encode_decode.2.1 demoGateModule 1
      { name := some "p".toList, typ := GateTy.inout, vectorSize := 3,
        inputGatev := [{ pos := 0, label := 30 }, { pos := 4, label := 31 },
                       { pos := 8, label := 32 }],
        outputGatev := [{ pos := 1, label := 40 }, { pos := 5, label := 41 },
                        { pos := 9, label := 42 }] } true 2
      { pos := 9, label := 42 } (by decide) (by decide) (by decide) (by decide)
      (by decide) (by decide) (by decide),
   c5_gate_id_encode_decode.2.2.1 demoGateModule 10 (by decide) (by decide),
   c5_gate_id_encode_decode.2.2.2.1 demoGateModule (encodeVectorGateId 5 false 0)
      (by decide) (by decide),
   c5_gate_id_encode_decode.2.2.2.2.1 demoGateModule 1
      { name := some "p".toList, typ := GateTy.inout, vectorSize := 3,
        inputGatev := [{ pos := 0, label := 30 }, { pos := 4, label := 31 },
                       { pos := 8, label := 32 }],
        outputGatev := [{ pos := 1, label := 40 }, { pos := 5, label := 41 },
                        { pos := 9, label := 42 }] } false 7
      (by decide) (by decide) (by decide) (by decide) (by decide) (by decide),
   c5_gate_id_encode_decode.2.2.2.2.2.1 demoGateModule 0
      { name := some "in".toList, typ := GateTy.input, vectorSize := -1,
        inputGate := some { pos := 0, label := 20 } } true
      (by decide) (by decide) (by decide) (by decide) (by decide),
   c5_gate_id_encode_decode.2.2.2.2.2.2 demoGateModule 2
      { name := some "q".toList, typ := GateTy.output, vectorSize := 2,
        outputGatev := [{ pos := 1, label := 50 }, { pos := 5, label := 51 }] }
      false 0
      (by decide) (by decide) (by decide) (by decide) (by decide)⟩

/-! ## C8 — getOrCreateFirstUnconnectedGate -/

theorem lowerBoundIdxAux_eq (isLess : Nat → Bool) (K : Nat) :
    ∀ (fuel first len : Nat), len ≤ fuel → first ≤ K → K ≤ first + len →
    (∀ i, first ≤ i → i < first + len → (isLess i = true ↔ i < K)) →
    lowerBoundIdxAux isLess fuel first len = K
  | 0, first, len, hf, h1, h2, _ => by
    have hlen0 : len = 0 := by omega
    subst hlen0
    show first = K
    omega
  | fuel + 1, first, len, hf, h1, h2, hprop => by
    unfold lowerBoundIdxAux
    by_cases h0 : len = 0
    · rw [if_pos h0]
      omega
    · rw [if_neg h0]
      simp only []
      by_cases hless : isLess (first + len / 2) = true
      · rw [if_pos hless]
        have hmid : first + len / 2 < K := (hprop _ (by omega) (by omega)).mp hless
        exact lowerBoundIdxAux_eq isLess K fuel (first + len / 2 + 1) (len - len / 2 - 1)
          (by omega) (by omega) (by omega)
          (fun i hi1 hi2 => hprop i (by omega) (by omega))
      · rw [if_neg hless]
        have hmid : ¬ first + len / 2 < K := fun hlt =>
          hless ((hprop _ (by omega) (by omega)).mpr hlt)
        exact lowerBoundIdxAux_eq isLess K fuel first (len / 2)
          (by omega) h1 (by omega)
          (fun i hi1 hi2 => hprop i (by omega) (by omega))

theorem lowerBoundIdx_boundary (isLess : Nat → Bool) (K len : Nat)
    (hK : K ≤ len) (h : ∀ i, i < len → (isLess i = true ↔ i < K)) :
    lowerBoundIdx isLess 0 len = K :=
  lowerBoundIdxAux_eq isLess K len 0 len (le_refl len) (Nat.zero_le K) (by omega)
    (fun i _ hi2 => h i (by omega))

/-- C8 (counterexample): on the vector `g[2]` where `g[0]` is unconnected
but `g[1]` is connected, `getOrCreateFirstUnconnectedGate` with `expand`
does not return the lowest-index unconnected gate `g[0]`: the binary search
misses the hole, the vector is enlarged to 3 and the brand-new gate is
returned instead. -/
theorem c8_counterexample_out_of_order_connection :
    MGate.isConnectedOutside (demoHoleDesc.inputGatev.getD 0 default) = false ∧
    (getOrCreateFirstUnconnectedGate ⟨[demoHoleDesc]⟩ "g".toList
        (Char.ofNat 0) false true).2.1 = some (freshGate false 2) ∧
    some (freshGate false 2) ≠ some (demoHoleDesc.inputGatev.getD 0 default) ∧
    ((getOrCreateFirstUnconnectedGate ⟨[demoHoleDesc]⟩ "g".toList
        (Char.ofNat 0) false true).1.descs.getD 0 default).vectorSize = 3 := by
  decide

/-- C8 (amended): on a gate vector whose connected gates form a prefix (the
in-order connection discipline the binary search assumes, with `K` connected
gates), `getOrCreateFirstUnconnectedGate` returns the lowest-index
unconnected gate whenever one exists (`K < size`); when all gates are
connected it either enlarges the vector by exactly one and returns the new
gate (`expand = true`) or returns null (`expand = false`). -/
theorem c8_first_unconnected_gate_in_order (m : ModuleGates) (gatename : List Char)
    (di : Nat) (d : GateDesc) (inside expand : Bool) (K : Nat)
    (hfind : findGateDesc m.descs gatename = some (di, Char.ofNat 0))
    (hd : m.descs[di]? = some d)
    (hname : d.name = some gatename)
    (htyp : d.typ ≠ GateTy.inout)
    (hvec : 0 ≤ d.vectorSize)
    (hlen : (if d.typ = GateTy.input then d.inputGatev else d.outputGatev).length
              = d.vectorSize.toNat)
    (hmax : d.vectorSize + 1 ≤ MAX_VECTORGATESIZE)
    (hK : K ≤ d.vectorSize.toNat)
    (hmono : ∀ i, i < d.vectorSize.toNat →
      ((if inside
        then ((if d.typ = GateTy.input then d.inputGatev
                else d.outputGatev).getD i default).isConnectedInside
        else ((if d.typ = GateTy.input then d.inputGatev
                else d.outputGatev).getD i default).isConnectedOutside) = true
        ↔ i < K)) :
    (K < d.vectorSize.toNat →
      getOrCreateFirstUnconnectedGate m gatename (Char.ofNat 0) inside expand =
        (m, some ((if d.typ = GateTy.input then d.inputGatev
                   else d.outputGatev).getD K default), none)) ∧
    (K = d.vectorSize.toNat → expand = true →
      getOrCreateFirstUnconnectedGate m gatename (Char.ofNat 0) inside expand =
        (⟨m.descs.set di (grownDesc d)⟩,
         some (if d.typ = GateTy.input then freshGate false d.vectorSize.toNat
               else freshGate true d.vectorSize.toNat), none)) ∧
    (K = d.vectorSize.toNat → expand = false →
      getOrCreateFirstUnconnectedGate m gatename (Char.ofNat 0) inside expand =
        (m, none, none)) := by
  have hgetD : m.descs.getD di default = d := by
    rw [List.getD_eq_getElem?_getD, hd]
    rfl
  have hvecT : d.isVector = true := by
    simp [GateDesc.isVector]
    omega
  have hdilt : di < m.descs.length := by
    by_contra hc
    rw [List.getElem?_eq_none (by omega)] at hd
    exact Option.noConfusion hd
  -- reduce the function to its search core
  have hsfx : ¬ (Char.ofNat 0 ≠ Char.ofNat 0 ∧ (Char.ofNat 0 : Char) ≠ Char.ofNat 0) := by
    simp
  have hbound := lowerBoundIdx_boundary
      (fun i => if inside
        then ((if d.typ = GateTy.input then d.inputGatev
                else d.outputGatev).getD i default).isConnectedInside
        else ((if d.typ = GateTy.input then d.inputGatev
                else d.outputGatev).getD i default).isConnectedOutside)
      K d.vectorSize.toNat hK
      (fun i hi => by
        constructor
        · intro hh
          exact (hmono i hi).mp (by
            cases inside <;> simpa using hh)
        · intro hh
          have := (hmono i hi).mpr hh
          cases inside <;> simpa using this)
  have hset : setGateSize m gatename ((d.vectorSize.toNat : Int) + 1) =
      (⟨m.descs.set di (grownDesc d)⟩, none) := by
    unfold setGateSize
    rw [hfind]
    simp only [hgetD]
    rw [if_neg (by simp), if_neg (by simp [hvecT]), if_neg (by omega),
        if_neg (by unfold MAX_VECTORGATESIZE at hmax ⊢; omega)]
    rw [show ((d.vectorSize.toNat : Int) + 1).toNat = d.vectorSize.toNat + 1 by omega]
    rw [if_neg (by omega), if_pos (by omega)]
    rw [show d.vectorSize.toNat + 1 - d.vectorSize.toNat = 1 by omega]
    rw [show List.range 1 = [0] from rfl]
    simp only [List.map_cons, List.map_nil, Nat.add_zero]
    rfl
  have hgetDset : (m.descs.set di (grownDesc d)).getD di default = grownDesc d := by
    rw [List.getD_eq_getElem?_getD, List.getElem?_set_self']
    simp [hdilt]
  obtain htI | htO : d.typ = GateTy.input ∨ d.typ = GateTy.output := by
    cases h : d.typ
    · exact Or.inl rfl
    · exact Or.inr rfl
    · exact absurd h htyp
  · -- input-type vector: the input side is searched
    simp only [htI, reduceIte, reduceCtorEq, eq_self_iff_true, if_true,
      decide_True] at hlen hmono hbound ⊢
    refine ⟨?_, ?_, ?_⟩
    · intro hKlt
      unfold getOrCreateFirstUnconnectedGate
      rw [hfind]
      simp only [hgetD]
      rw [if_neg (by simp [hvecT]), if_neg hsfx]
      simp only [ne_eq, not_true_eq_false, Bool.false_eq_true, if_false, htI,
        reduceCtorEq, decide_True, decide_False, eq_self_iff_true, if_true]
      rw [hbound, if_pos hKlt]
    · intro hKeq hexp
      unfold getOrCreateFirstUnconnectedGate
      rw [hfind]
      simp only [hgetD]
      rw [if_neg (by simp [hvecT]), if_neg hsfx]
      simp only [ne_eq, not_true_eq_false, Bool.false_eq_true, if_false, htI,
        reduceCtorEq, decide_True, decide_False, eq_self_iff_true, if_true]
      rw [hbound, if_neg (by omega), hexp]
      simp only [eq_self_iff_true, if_true, Bool.false_eq_true, if_false]
      rw [show d.name.getD [] = gatename by rw [hname]; rfl]
      rw [hset]
      simp only [hgetDset]
      rw [show (grownDesc d).inputGatev = d.inputGatev ++ [freshGate false d.vectorSize.toNat] by
            simp [grownDesc, htI]]
      rw [show (d.inputGatev ++ [freshGate false d.vectorSize.toNat]).getD
            d.vectorSize.toNat default = freshGate false d.vectorSize.toNat by
          rw [List.getD_eq_getElem?_getD, ← hlen,
              List.getElem?_append_right (le_refl _)]
          simp]
    · intro hKeq hexp
      unfold getOrCreateFirstUnconnectedGate
      rw [hfind]
      simp only [hgetD]
      rw [if_neg (by simp [hvecT]), if_neg hsfx]
      simp only [ne_eq, not_true_eq_false, Bool.false_eq_true, if_false, htI,
        reduceCtorEq, decide_True, decide_False, eq_self_iff_true, if_true]
      rw [hbound, if_neg (by omega), hexp]
      simp only [eq_self_iff_true, if_true, Bool.false_eq_true, if_false]
      rw [List.find?_eq_none.mpr ?_]
      intro x hx
      have hxlt : x < d.vectorSize.toNat := by
        have := List.mem_range.mp hx
        omega
      have hconn := (hmono x hxlt).mpr (by omega)
      rw [List.getD_eq_getElem?_getD] at hconn
      split at hconn
      · simp_all
      · simp_all
  · -- output-type vector: the output side is searched
    simp only [htO, reduceIte, reduceCtorEq, Bool.false_eq_true, if_false,
      decide_False] at hlen hmono hbound ⊢
    refine ⟨?_, ?_, ?_⟩
    · intro hKlt
      unfold getOrCreateFirstUnconnectedGate
      rw [hfind]
      simp only [hgetD]
      rw [if_neg (by simp [hvecT]), if_neg hsfx]
      simp only [ne_eq, not_true_eq_false, Bool.false_eq_true, if_false, htO,
        reduceCtorEq, decide_True, decide_False, eq_self_iff_true, if_true]
      rw [hbound, if_pos hKlt]
    · intro hKeq hexp
      unfold getOrCreateFirstUnconnectedGate
      rw [hfind]
      simp only [hgetD]
      rw [if_neg (by simp [hvecT]), if_neg hsfx]
      simp only [ne_eq, not_true_eq_false, Bool.false_eq_true, if_false, htO,
        reduceCtorEq, decide_True, decide_False, eq_self_iff_true, if_true]
      rw [hbound, if_neg (by omega), hexp]
      simp only [eq_self_iff_true, if_true, Bool.false_eq_true, if_false]
      rw [show d.name.getD [] = gatename by rw [hname]; rfl]
      rw [hset]
      simp only [hgetDset]
      rw [show (grownDesc d).outputGatev = d.outputGatev ++ [freshGate true d.vectorSize.toNat] by
            simp [grownDesc, htO]]
      rw [show (d.outputGatev ++ [freshGate true d.vectorSize.toNat]).getD
            d.vectorSize.toNat default = freshGate true d.vectorSize.toNat by
          rw [List.getD_eq_getElem?_getD, ← hlen,
              List.getElem?_append_right (le_refl _)]
          simp]
    · intro hKeq hexp
      unfold getOrCreateFirstUnconnectedGate
      rw [hfind]
      simp only [hgetD]
      rw [if_neg (by simp [hvecT]), if_neg hsfx]
      simp only [ne_eq, not_true_eq_false, Bool.false_eq_true, if_false, htO,
        reduceCtorEq, decide_True, decide_False, eq_self_iff_true, if_true]
      rw [hbound, if_neg (by omega), hexp]
      simp only [eq_self_iff_true, if_true, Bool.false_eq_true, if_false]
      rw [List.find?_eq_none.mpr ?_]
      intro x hx
      have hxlt : x < d.vectorSize.toNat := by
        have := List.mem_range.mp hx
        omega
      have hconn := (hmono x hxlt).mpr (by omega)
      rw [List.getD_eq_getElem?_getD] at hconn
      split at hconn
      · simp_all
      · simp_all

/-- Closed instance of `c8_first_unconnected_gate_in_order`: the
prefix-connected vector `g[3]` returns its first unconnected gate `g[2]`;
the fully connected vector `g[2]` expands and returns the fresh gate when
allowed, and yields null otherwise. -/
theorem c8_first_unconnected_gate_in_order_witness :
    getOrCreateFirstUnconnectedGate ⟨[demoOrderedDesc]⟩ "g".toList
        (Char.ofNat 0) false false =
      (⟨[demoOrderedDesc]⟩, some (demoOrderedDesc.inputGatev.getD 2 default), none) ∧
    getOrCreateFirstUnconnectedGate ⟨[demoFullDesc]⟩ "g".toList
        (Char.ofNat 0) false true =
      (⟨[demoFullDesc].set 0 (grownDesc demoFullDesc)⟩,
       some (freshGate false 2), none) ∧
    getOrCreateFirstUnconnectedGate ⟨[demoFullDesc]⟩ "g".toList
        (Char.ofNat 0) false false =
      (⟨[demoFullDesc]⟩, none, none) := by
  refine ⟨?_, ?_, ?_⟩
  · exact (c8_first_unconnected_gate_in_order ⟨[demoOrderedDesc]⟩ "g".toList 0
      demoOrderedDesc false false 2 (by decide) (by decide) (by decide) (by decide)
      (by decide) (by decide) (by decide) (by decide) (by decide)).1 (by decide)
  · exact (c8_first_unconnected_gate_in_order ⟨[demoFullDesc]⟩ "g".toList 0
      demoFullDesc false true 2 (by decide) (by decide) (by decide) (by decide)
      (by decide) (by decide) (by decide) (by decide) (by decide)).2.1
      (by decide) rfl
  · exact (c8_first_unconnected_gate_in_order ⟨[demoFullDesc]⟩ "g".toList 0
      demoFullDesc false false 2 (by decide) (by decide) (by decide) (by decide)
      (by decide) (by decide) (by decide) (by decide) (by decide)).2.2
      (by decide) rfl

end Omnetpp



